import Mathlib

/-!
Verification development for the simulation core of an action-roguelike game
(entity-component store, combat resolution, frame-windowed hitboxes,
status effects, experience, and grid A* pathfinding).

Modelling conventions
* Python `int` is embedded as `ℤ`; Python `float` values are embedded as
  exact rationals `ℚ` (the source only ever combines them with `+ - * /`
  and comparisons, and every claim is about the exact arithmetic).
  Geometry that takes square roots and `atan2` (the hitbox shape tests) is
  embedded over `ℝ`.
* Python `int(x)` (truncation toward zero) is `pyIntQ`.
* `random.random()` is modelled by an explicit sample stream
  `rng : ℕ → ℚ` together with an index that advances on every draw.
* The global `event_bus.emit` appends to an explicit event list.
* Python dicts keep insertion order; the entity store is an association
  list in insertion order.
-/

/-- Python `int()` applied to an exact rational: truncation toward zero. -/
def pyIntQ (q : ℚ) : ℤ := if 0 ≤ q then ⌊q⌋ else ⌈q⌉

theorem pyIntQ_of_nonneg {q : ℚ} (h : 0 ≤ q) : pyIntQ q = ⌊q⌋ := by
  rw [pyIntQ, if_pos h]

theorem pyIntQ_intCast (n : ℤ) : pyIntQ (n : ℚ) = n := by
  rcases le_or_lt 0 (n : ℚ) with h | h
  · rw [pyIntQ_of_nonneg h, Int.floor_intCast]
  · rw [pyIntQ, if_neg (not_le.mpr h), Int.ceil_intCast]

namespace Game

/-- `FactionType` (components.py): faction tags. -/
inductive FactionType where
  | player
  | enemy
  | boss
  | neutral
deriving DecidableEq, Repr

/-- `WeaponType` (components.py). -/
inductive WeaponType where
  | sword
  | spear
  | crossbow
deriving DecidableEq, Repr

/-- `StatusEffectType` (components.py). -/
inductive StatusEffectType where
  | slow
  | slowed
  | poison
  | burn
  | freeze
  | stun
  | regen
  | speed_boost
  | invulnerable
deriving DecidableEq, Repr

/-- `StatusEffect` (components.py): a single timed effect. -/
structure StatusEffect where
  effect_type : StatusEffectType
  duration : ℚ
  value : ℚ := 0
  tick_rate : ℚ := 1
  last_tick : ℚ := 0
deriving DecidableEq, Repr

/-- `Transform` (components.py): position and per-tick velocity. -/
structure Transform where
  x : ℚ := 0
  y : ℚ := 0
  dx : ℚ := 0
  dy : ℚ := 0
deriving DecidableEq, Repr

/-- `Health` (components.py). `__post_init__` clamps `hp` to `max_hp`;
we embed already-constructed states, so the fields are free. -/
structure Health where
  max_hp : ℤ
  hp : ℤ
deriving DecidableEq, Repr

/-- `Health.is_alive`. -/
def Health.is_alive (h : Health) : Bool := 0 < h.hp

/-- `Health.take_damage`: `hp = max(0, hp - amount)`, returns the actual
damage dealt (`old_hp - hp`) together with the mutated component. -/
def Health.take_damage (h : Health) (amount : ℤ) : ℤ × Health :=
  let old_hp := h.hp
  let new_hp := max 0 (h.hp - amount)
  (old_hp - new_hp, { h with hp := new_hp })

/-- `Health.heal`: `hp = min(max_hp, hp + amount)`, returns actual healing. -/
def Health.heal (h : Health) (amount : ℤ) : ℤ × Health :=
  let old_hp := h.hp
  let new_hp := min h.max_hp (h.hp + amount)
  (new_hp - old_hp, { h with hp := new_hp })

/-- `Damage` (components.py). -/
structure Damage where
  base : ℤ := 10
  crit_chance : ℚ := 0
  crit_multiplier : ℚ := 2
  bonus_damage : ℤ := 0
deriving DecidableEq, Repr

/-- `Damage.calculate_damage`: when `is_crit` is `none` the source draws
`random.random() < crit_chance`; the drawn sample is passed in as `roll`
(callers advance the stream exactly when they pass `none`).
On a crit the damage is `int((base + bonus) * crit_multiplier)`. -/
def Damage.calculate_damage (d : Damage) (is_crit : Option Bool) (roll : ℚ) :
    ℤ × Bool :=
  let crit := match is_crit with
    | some b => b
    | none => decide (roll < d.crit_chance)
  let dmg := d.base + d.bonus_damage
  let dmg := if crit then pyIntQ ((dmg : ℚ) * d.crit_multiplier) else dmg
  (dmg, crit)

/-- `Faction` (components.py). -/
structure Faction where
  tag : FactionType := .neutral
deriving DecidableEq, Repr

/-- `Faction.is_enemy_of`. -/
def Faction.is_enemy_of (f other : Faction) : Bool :=
  if f.tag = .player then other.tag = .enemy ∨ other.tag = .boss
  else if f.tag = .enemy ∨ f.tag = .boss then other.tag = .player
  else false

/-- `Weapon` (components.py). Of the `modifiers` dict only the key
`"range_multiplier"` is ever read (in `get_effective_range`); it is
embedded as an optional rational. -/
structure Weapon where
  weapon_type : WeaponType := .sword
  attack_delay : ℚ := 67/100
  range : ℚ := 60
  projectile_speed : ℚ := 0
  reload_time : ℚ := 0
  penetration : ℤ := 0
  range_multiplier : Option ℚ := none
  last_attack_time : ℚ := 0
  ammo : ℤ := 0
deriving DecidableEq, Repr

/-- `Weapon.can_attack`: `now - last_attack_time >= attack_delay`. -/
def Weapon.can_attack (w : Weapon) (current_time : ℚ) : Bool :=
  w.attack_delay ≤ current_time - w.last_attack_time

/-- `Weapon.get_effective_range`: `range * modifiers.get("range_multiplier", 1.0)`. -/
def Weapon.get_effective_range (w : Weapon) : ℚ :=
  w.range * (w.range_multiplier.getD 1)

/-- `Experience` (components.py). -/
structure Experience where
  level : ℤ := 1
  xp : ℤ := 0
  next_xp : ℤ := 50
  xp_multiplier : ℚ := 1
deriving DecidableEq, Repr

/-- The `while self.xp >= self.next_xp` loop of `Experience.add_xp`,
embedded with explicit fuel (one unit per iteration).  Result fields:
`(xp, next_xp, level, leveled_up, loop condition became false)`.  The last
component records whether the loop actually finished rather than running
out of fuel; the source loop does not terminate when `next_xp <= 0`, and
`add_xp` supplies fuel that is proved sufficient whenever `next_xp >= 1`. -/
def levelLoop : ℕ → ℤ → ℤ → ℤ → Bool → ℤ × ℤ × ℤ × Bool × Bool
  | 0, xp, nxt, lvl, lu => (xp, nxt, lvl, lu, decide (xp < nxt))
  | fuel + 1, xp, nxt, lvl, lu =>
    if nxt ≤ xp then
      levelLoop fuel (xp - nxt) (pyIntQ ((nxt : ℚ) * (3/2))) (lvl + 1) true
    else (xp, nxt, lvl, lu, true)

/-- `Experience.add_xp`: adds `int(amount * xp_multiplier)`, then levels up
while `xp >= next_xp`, multiplying `next_xp` by 1.5 (`int(next_xp * 1.5)`)
per level.  Returns the mutated component and whether a level was gained. -/
def Experience.add_xp (e : Experience) (amount : ℤ) : Experience × Bool :=
  let adjusted := pyIntQ ((amount : ℚ) * e.xp_multiplier)
  let x0 := e.xp + adjusted
  let r := levelLoop (x0.toNat + 1) x0 e.next_xp e.level false
  ({ e with xp := r.1, next_xp := r.2.1, level := r.2.2.1 }, r.2.2.2.1)

/-- Whether the level-up loop inside `add_xp` reaches its exit condition
within the supplied fuel (i.e. the source loop terminates). -/
def Experience.add_xp_terminates (e : Experience) (amount : ℤ) : Bool :=
  let adjusted := pyIntQ ((amount : ℚ) * e.xp_multiplier)
  let x0 := e.xp + adjusted
  (levelLoop (x0.toNat + 1) x0 e.next_xp e.level false).2.2.2.2

/-- `Enemy` (components.py): enemy type tag. -/
structure Enemy where
  enemy_type : String := "goblin"
deriving DecidableEq, Repr

/-- `StatusEffects` (components.py): list of active effects. -/
structure StatusEffects where
  effects : List StatusEffect := []
deriving DecidableEq, Repr

/-- `StatusEffects.add_effect`: if an effect of the same kind exists its
duration is refreshed in place (value untouched), otherwise append. -/
def addEffectList (effect : StatusEffect) : List StatusEffect → List StatusEffect
  | [] => [effect]
  | existing :: rest =>
    if existing.effect_type = effect.effect_type then
      { existing with duration := effect.duration } :: rest
    else existing :: addEffectList effect rest

/-- `StatusEffects.add_effect` on the component. -/
def StatusEffects.add_effect (s : StatusEffects) (effect : StatusEffect) :
    StatusEffects :=
  { s with effects := addEffectList effect s.effects }

/-- `StatusEffects.remove_effect`: drop all effects of the given kind. -/
def StatusEffects.remove_effect (s : StatusEffects) (t : StatusEffectType) :
    StatusEffects :=
  { s with effects := s.effects.filter (fun e => e.effect_type ≠ t) }

/-- `StatusEffects.has_effect`. -/
def StatusEffects.has_effect (s : StatusEffects) (t : StatusEffectType) : Bool :=
  s.effects.any (fun e => e.effect_type = t)

/-- `StatusEffects.update`: every effect's duration decreases by `dt`; an
effect whose new duration is `<= 0` is removed.  (The source iterates over
a copy, mutating durations and calling `list.remove`; under value equality
this is the map-then-filter below.) -/
def StatusEffects.update (s : StatusEffects) (dt : ℚ) : StatusEffects :=
  { s with
    effects :=
      (s.effects.map (fun e => { e with duration := e.duration - dt })).filter
        (fun e => ¬ e.duration ≤ 0) }

end Game

namespace Game

/-- `pygame.Rect` as used by `Collider.get_rect`: integer box. -/
structure PyRect where
  x : ℤ
  y : ℤ
  w : ℤ
  h : ℤ
deriving DecidableEq, Repr

/-- `Collider` (components.py). -/
structure Collider where
  width : ℤ := 32
  height : ℤ := 32
  solid : Bool := true
  hitbox : Option PyRect := none
deriving DecidableEq, Repr

/-- `Collider.get_rect`: the axis-aligned box at the (truncated) transform
position, offset by the custom hitbox when present. -/
def Collider.get_rect (c : Collider) (t : Transform) : PyRect :=
  match c.hitbox with
  | some hb => ⟨pyIntQ t.x + hb.x, pyIntQ t.y + hb.y, hb.w, hb.h⟩
  | none => ⟨pyIntQ t.x, pyIntQ t.y, c.width, c.height⟩

/-- `Entity` (entities.py): a type-keyed component dict, i.e. at most one
component per kind; embedded as one `Option` per component kind used by
the verified subsystems. -/
structure Entity where
  transform : Option Transform := none
  health : Option Health := none
  damage : Option Damage := none
  faction : Option Faction := none
  weapon : Option Weapon := none
  experience : Option Experience := none
  enemy : Option Enemy := none
  collider : Option Collider := none
deriving DecidableEq, Repr

/-- `EntityManager` (entities.py): insertion-ordered id-to-entity dict. -/
structure EntityManager where
  entities : List (ℤ × Entity) := []
  next_id : ℤ := 0
deriving DecidableEq, Repr

/-- `EntityManager.get_entity`. -/
def EntityManager.get_entity (em : EntityManager) (entity_id : ℤ) : Option Entity :=
  (em.entities.find? (fun p => p.1 = entity_id)).map Prod.snd

/-- In-place mutation of a stored entity's components (Python mutates the
object held in the dict; order and keys are unchanged). -/
def EntityManager.set_entity (em : EntityManager) (entity_id : ℤ) (e : Entity) :
    EntityManager :=
  { em with
    entities := em.entities.map (fun p => if p.1 = entity_id then (entity_id, e) else p) }

/-- `EntityManager.remove_entity`. -/
def EntityManager.remove_entity (em : EntityManager) (entity_id : ℤ) : EntityManager :=
  { em with entities := em.entities.filter (fun p => ¬ p.1 = entity_id) }

/-- The events emitted through the global `event_bus` by the combat system
(events.py constants with the payload dicts built in systems.py). -/
inductive GameEvent where
  | damage_taken (entity_id : ℤ) (damage : ℤ) (attacker_id : ℤ) (is_crit : Bool)
  | level_up (entity_id : ℤ) (level : ℤ)
  | enemy_killed (entity_id : ℤ) (killer_id : ℤ)
  | player_died (entity_id : ℤ)
deriving DecidableEq, Repr

/-- Mutable ambient state threaded through the combat system: the entity
store, the `random.random()` sample stream with its cursor, and the queue
of events appended by `event_bus.emit`. -/
structure GameState where
  em : EntityManager
  rng : ℕ → ℚ := fun _ => 1
  rngIdx : ℕ := 0
  events : List GameEvent := []

/-- `event_bus.emit`: append to the queue. -/
def GameState.emit (st : GameState) (ev : GameEvent) : GameState :=
  { st with events := st.events ++ [ev] }

/-- One `random.random()` draw. -/
def GameState.draw (st : GameState) : ℚ × GameState :=
  (st.rng st.rngIdx, { st with rngIdx := st.rngIdx + 1 })

/-- `CombatSystem.handle_death` (systems.py), on the call path used by
`apply_damage` where `puddle_system` and `enemy_ai` are `None` (so the
slime-split branch, which requires `enemy_ai`, is a no-op).
Grants XP `int(10 * (1 + enemy_level * 0.1))` (tripled via
`int(xp_amount * 3)` for boss faction) to the killer, emits a level-up
event when `add_xp` reports one, emits the player-died or enemy-killed
event, and removes the dead entity for the enemy/boss branch. -/
def handle_death (st : GameState) (entity_id killer_id : ℤ) : GameState :=
  match st.em.get_entity entity_id, st.em.get_entity killer_id with
  | some entity, some killer =>
    match entity.faction, killer.faction with
    | some faction, some _killer_faction =>
      if faction.tag = .player then st.emit (.player_died entity_id)
      else if faction.tag = .enemy ∨ faction.tag = .boss then
        let st1 :=
          match entity.experience with
          | some exp =>
            let base_xp : ℤ := 10
            let xp_amount := pyIntQ ((base_xp : ℚ) * (1 + (exp.level : ℚ) * (1/10)))
            let xp_amount :=
              if faction.tag = FactionType.boss then pyIntQ ((xp_amount : ℚ) * 3)
              else xp_amount
            match killer.experience with
            | some killer_exp =>
              let r := killer_exp.add_xp xp_amount
              let st1 :=
                { st with
                  em := st.em.set_entity killer_id { killer with experience := some r.1 } }
              if r.2 then st1.emit (.level_up killer_id r.1.level) else st1
            | none => st
          | none => st
        let st2 := st1.emit (.enemy_killed entity_id killer_id)
        { st2 with em := st2.em.remove_entity entity_id }
      else st
    | _, _ => st
  | _, _ => st

/-- `CombatSystem.apply_damage` (systems.py).  Rolls the fixed 10% dodge
for enemy-faction targets, applies `Health.take_damage`, emits the
damage-taken event when the actual damage is positive, and runs death
handling when the resulting hp is not alive.  Returns the actual damage. -/
def apply_damage (st : GameState) (target_id : ℤ) (damage : ℤ)
    (attacker_id : ℤ) (is_crit : Bool) : ℤ × GameState :=
  match st.em.get_entity target_id with
  | none => (0, st)
  | some target =>
    match target.health with
    | none => (0, st)
    | some health =>
      let afterDodge : Option GameState :=
        match target.faction with
        | some faction =>
          if faction.tag = .enemy then
            let r := st.draw
            if r.1 < 1/10 then none else some r.2
          else some st
        | none => some st
      match afterDodge with
      | none =>
        -- dodged: one sample was consumed, nothing else happened
        (0, (st.draw).2)
      | some st1 =>
        let r := health.take_damage damage
        let st2 :=
          { st1 with
            em := st1.em.set_entity target_id { target with health := some r.2 } }
        if 0 < r.1 then
          let st3 := st2.emit (.damage_taken target_id r.1 attacker_id is_crit)
          let st4 :=
            if ¬ r.2.is_alive then handle_death st3 target_id attacker_id else st3
          (r.1, st4)
        else (r.1, st2)

/-- The target-candidate loop of `CombatSystem.perform_attack`.  The source
iterates `entity_manager.entities.items()`; the embedding iterates the
snapshot of that association list taken when the loop starts.  (The reads
performed on a candidate — faction, transform, health presence — are never
mutated by the loop body, so the snapshot agrees with the live view; in
CPython a mid-loop `remove_entity` would additionally make the dict
iterator raise, which a shallow embedding of the values cannot represent.) -/
def attackLoop (attacker_id : ℤ) (afac : Faction) (dmgc : Damage) (pen : ℤ)
    (range_sq : ℚ) (tpos : ℚ × ℚ) :
    GameState → List (ℤ × Entity) → List ℤ → List ℤ × GameState
  | st, [], hits => (hits, st)
  | st, (eid, e) :: rest, hits =>
    if eid = attacker_id then attackLoop attacker_id afac dmgc pen range_sq tpos st rest hits
    else
      match e.faction, e.transform, e.health with
      | some tfac, some ttr, some _thealth =>
        if ¬ afac.is_enemy_of tfac then
          attackLoop attacker_id afac dmgc pen range_sq tpos st rest hits
        else
          let dx := ttr.x - tpos.1
          let dy := ttr.y - tpos.2
          let dist_sq := dx * dx + dy * dy
          if dist_sq ≤ range_sq then
            let r := st.draw
            let dc := dmgc.calculate_damage none r.1
            let ad := apply_damage r.2 eid dc.1 attacker_id dc.2
            let hits' := if 0 < ad.1 then hits ++ [eid] else hits
            if 0 < pen ∧ pen + 1 ≤ (hits'.length : ℤ) then (hits', ad.2)
            else attackLoop attacker_id afac dmgc pen range_sq tpos ad.2 rest hits'
          else attackLoop attacker_id afac dmgc pen range_sq tpos st rest hits
      | _, _, _ => attackLoop attacker_id afac dmgc pen range_sq tpos st rest hits

/-- `CombatSystem.perform_attack` (systems.py): cooldown gate, stamp
`last_attack_time`, then the candidate loop over all entities. -/
def perform_attack (st : GameState) (attacker_id : ℤ) (target_pos : ℚ × ℚ)
    (current_time : ℚ) : List ℤ × GameState :=
  match st.em.get_entity attacker_id with
  | none => ([], st)
  | some attacker =>
    match attacker.weapon, attacker.damage, attacker.faction, attacker.transform with
    | some weapon, some damage_comp, some attacker_faction, some _atransform =>
      if ¬ weapon.can_attack current_time then ([], st)
      else
        let st1 :=
          { st with
            em := st.em.set_entity attacker_id
              { attacker with weapon := some { weapon with last_attack_time := current_time } } }
        let range_sq := weapon.get_effective_range ^ 2
        attackLoop attacker_id attacker_faction damage_comp weapon.penetration
          range_sq target_pos st1 st.em.entities []
    | _, _, _, _ => ([], st)

end Game

namespace Game

/-- `math.atan2(y, x)` with range `(-pi, pi]` and `atan2(0, 0) = 0`,
i.e. the argument of the complex number `x + y*i`. -/
noncomputable def atan2 (y x : ℝ) : ℝ := Complex.arg ⟨x, y⟩

/-- The pair of `while` loops in `ArcHitbox.check_point` that bring an
angle difference into `[-pi, pi]`: the first subtracts `2*pi` while the
value exceeds `pi` (its iteration count is the ceiling below), the second
symmetrically adds `2*pi` while the value is below `-pi`; at most one of
the two loops runs. -/
noncomputable def normAngle (d : ℝ) : ℝ :=
  if Real.pi < d then d - 2 * Real.pi * ⌈(d - Real.pi) / (2 * Real.pi)⌉
  else if d < -Real.pi then d + 2 * Real.pi * ⌈(-Real.pi - d) / (2 * Real.pi)⌉
  else d

/-- `ArcHitbox` (hitboxes.py). -/
structure ArcHitbox where
  center : ℝ × ℝ
  radius : ℝ
  start_angle : ℝ
  arc_angle : ℝ
  start_frame : ℤ
  end_frame : ℤ
  current_frame : ℤ := 0

/-- `ArcHitbox.check_point`: inside the disc, and (unless exactly at the
center) within `arc_angle / 2` of `start_angle` after normalization.  The
conjunction mirrors the source's early `return False` on
`distance > radius` and early `return True` on `distance == 0`. -/
noncomputable def ArcHitbox.check_point (hb : ArcHitbox) (p : ℝ × ℝ) : Prop :=
  let dx := p.1 - hb.center.1
  let dy := p.2 - hb.center.2
  let distance := Real.sqrt (dx * dx + dy * dy)
  ¬ distance > hb.radius ∧
    (distance = 0 ∨
      |normAngle (atan2 dy dx - hb.start_angle)| ≤ hb.arc_angle / 2)

/-- `LineHitbox` (hitboxes.py); the source field `end` is `end_p` here
(`end` is reserved in Lean). -/
structure LineHitbox where
  start : ℝ × ℝ
  end_p : ℝ × ℝ
  width : ℝ
  start_frame : ℤ
  end_frame : ℤ
  current_frame : ℤ := 0

/-- `LineHitbox.check_point`: project the point on the segment, require the
projection parameter in `[0, 1]` and the distance to the closest point at
most `width / 2`; a zero-length line contains nothing. -/
noncomputable def LineHitbox.check_point (hb : LineHitbox) (p : ℝ × ℝ) : Prop :=
  let line_dx := hb.end_p.1 - hb.start.1
  let line_dy := hb.end_p.2 - hb.start.2
  let line_length := Real.sqrt (line_dx * line_dx + line_dy * line_dy)
  ¬ line_length = 0 ∧
    let point_dx := p.1 - hb.start.1
    let point_dy := p.2 - hb.start.2
    let t := (point_dx * line_dx + point_dy * line_dy) / (line_length * line_length)
    ¬ (t < 0 ∨ t > 1) ∧
      let closest_x := hb.start.1 + t * line_dx
      let closest_y := hb.start.2 + t * line_dy
      let dist_dx := p.1 - closest_x
      let dist_dy := p.2 - closest_y
      Real.sqrt (dist_dx * dist_dx + dist_dy * dist_dy) ≤ hb.width / 2

/-- The four collider corners `(left, top), (right, top), (right, bottom),
(left, bottom)` of `check_entity`, as real points. -/
def cornersOf (r : PyRect) : List (ℝ × ℝ) :=
  [((r.x : ℝ), (r.y : ℝ)), ((r.x + r.w : ℤ), (r.y : ℝ)),
   ((r.x + r.w : ℤ), (r.y + r.h : ℤ)), ((r.x : ℝ), (r.y + r.h : ℤ))]

/-- The melee hitboxes stored by `HitboxManager.active_hitboxes`
(`ArcHitbox | LineHitbox`). -/
inductive Hitbox where
  | arc (hb : ArcHitbox)
  | line (hb : LineHitbox)

/-- Shared frame-window accessor. -/
def Hitbox.start_frame : Hitbox → ℤ
  | .arc hb => hb.start_frame
  | .line hb => hb.start_frame

/-- Shared frame-window accessor. -/
def Hitbox.end_frame : Hitbox → ℤ
  | .arc hb => hb.end_frame
  | .line hb => hb.end_frame

/-- Shared frame-window accessor. -/
def Hitbox.current_frame : Hitbox → ℤ
  | .arc hb => hb.current_frame
  | .line hb => hb.current_frame

/-- `hitbox.current_frame = value` (the per-tick sync in `update`). -/
def Hitbox.withCurrentFrame : Hitbox → ℤ → Hitbox
  | .arc hb, f => .arc { hb with current_frame := f }
  | .line hb, f => .line { hb with current_frame := f }

/-- `is_active`: `start_frame <= current_frame <= end_frame`, identical for
both shapes. -/
def Hitbox.is_active (h : Hitbox) : Bool :=
  h.start_frame ≤ h.current_frame ∧ h.current_frame ≤ h.end_frame

/-- `check_entity`, common to both shapes: the entity's center point or any
corner of its collider rect is contained in the shape. -/
noncomputable def Hitbox.check_point (h : Hitbox) (p : ℝ × ℝ) : Prop :=
  match h with
  | .arc hb => hb.check_point p
  | .line hb => hb.check_point p

/-- `ArcHitbox.check_entity` / `LineHitbox.check_entity`: center point
first, then the four collider-rect corners. -/
noncomputable def Hitbox.check_entity (h : Hitbox) (t : Transform) (c : Collider) :
    Prop :=
  h.check_point ((t.x : ℝ), (t.y : ℝ)) ∨
    ∃ p ∈ cornersOf (c.get_rect t), h.check_point p

/-- `HitboxManager` (hitboxes.py): active hitboxes and the shared
monotonically incremented frame counter. -/
structure HitboxManager where
  active_hitboxes : List Hitbox := []
  frame_counter : ℤ := 0

/-- `HitboxManager.add_arc_hitbox` (appends with `current_frame = 0`). -/
def HitboxManager.add_arc_hitbox (m : HitboxManager) (center : ℝ × ℝ)
    (radius start_angle arc_angle : ℝ) (start_frame end_frame : ℤ) :
    HitboxManager :=
  { m with
    active_hitboxes := m.active_hitboxes ++
      [.arc ⟨center, radius, start_angle, arc_angle, start_frame, end_frame, 0⟩] }

/-- `HitboxManager.add_line_hitbox` (appends with `current_frame = 0`). -/
def HitboxManager.add_line_hitbox (m : HitboxManager) (start end_p : ℝ × ℝ)
    (width : ℝ) (start_frame end_frame : ℤ) : HitboxManager :=
  { m with
    active_hitboxes := m.active_hitboxes ++
      [.line ⟨start, end_p, width, start_frame, end_frame, 0⟩] }

/-- `HitboxManager.update`: increment the frame counter, stamp it into
every hitbox's `current_frame`, and purge the hitboxes whose
`current_frame` now exceeds `end_frame`.  (The source collects the expired
ones and removes them with `list.remove`; under value equality that is the
filter below.) -/
def HitboxManager.update (m : HitboxManager) : HitboxManager :=
  let fc := m.frame_counter + 1
  let stamped := m.active_hitboxes.map (fun hb => hb.withCurrentFrame fc)
  { active_hitboxes := stamped.filter (fun hb => ¬ hb.end_frame < hb.current_frame),
    frame_counter := fc }

open Classical in
/-- The inner entity loop of `check_hits` for one active hitbox: skip the
attacker, the excluded ids and the already-hit ids, skip entities without
transform or collider, and append the entity id on shape containment.
`acc` is the `hit_entities` list shared across all hitboxes of one call. -/
noncomputable def hitboxScan (attacker_id : ℤ) (exclude_ids : List ℤ)
    (hb : Hitbox) : List (ℤ × Entity) → List ℤ → List ℤ
  | [], acc => acc
  | (eid, e) :: rest, acc =>
    if eid = attacker_id ∨ eid ∈ exclude_ids ∨ eid ∈ acc then
      hitboxScan attacker_id exclude_ids hb rest acc
    else match e.transform, e.collider with
      | some t, some c =>
        if hb.check_entity t c then
          hitboxScan attacker_id exclude_ids hb rest (acc ++ [eid])
        else hitboxScan attacker_id exclude_ids hb rest acc
      | _, _ => hitboxScan attacker_id exclude_ids hb rest acc

/-- The outer hitbox loop of `check_hits`: inactive hitboxes are skipped
entirely; the accumulator is threaded through the active ones. -/
noncomputable def checkHitsLoop (attacker_id : ℤ) (exclude_ids : List ℤ)
    (ents : List (ℤ × Entity)) : List Hitbox → List ℤ → List ℤ
  | [], acc => acc
  | hb :: rest, acc =>
    if hb.is_active then
      checkHitsLoop attacker_id exclude_ids ents rest
        (hitboxScan attacker_id exclude_ids hb ents acc)
    else checkHitsLoop attacker_id exclude_ids ents rest acc

/-- `HitboxManager.check_hits` (hitboxes.py). -/
noncomputable def HitboxManager.check_hits (m : HitboxManager) (attacker_id : ℤ)
    (em : EntityManager) (exclude_ids : List ℤ := []) : List ℤ :=
  checkHitsLoop attacker_id exclude_ids em.entities m.active_hitboxes []

end Game

namespace Game

/-- `Level` (level.py): a `width x height` tile grid.  `tileWalkable x y`
is the `walkable` flag of `tiles[y][x]`; it is consulted only in bounds. -/
structure Level where
  width : ℤ
  height : ℤ
  tileWalkable : ℤ → ℤ → Bool

/-- `Level.is_walkable`: `get_tile` returns `None` out of bounds, which
`is_walkable` maps to `False`. -/
def Level.is_walkable (l : Level) (x y : ℤ) : Bool :=
  if 0 ≤ x ∧ x < l.width ∧ 0 ≤ y ∧ y < l.height then l.tileWalkable x y else false

/-- `Node` (pathfinding.py): A* node with parent pointer. -/
inductive Node where
  | mk (x y : ℤ) (g h : ℚ) (parent : Option Node)

/-- Node field accessor. -/
def Node.x : Node → ℤ
  | .mk x _ _ _ _ => x

/-- Node field accessor. -/
def Node.y : Node → ℤ
  | .mk _ y _ _ _ => y

/-- Node field accessor. -/
def Node.g : Node → ℚ
  | .mk _ _ g _ _ => g

/-- Node field accessor. -/
def Node.h : Node → ℚ
  | .mk _ _ _ h _ => h

/-- Node field accessor. -/
def Node.parent : Node → Option Node
  | .mk _ _ _ _ p => p

/-- `Node.f`: total cost `g + h`. -/
def Node.f (n : Node) : ℚ := n.g + n.h

/-- `Pathfinder.heuristic`: Manhattan distance. -/
def heuristic (x1 y1 x2 y2 : ℤ) : ℚ := ((|x1 - x2| + |y1 - y2| : ℤ) : ℚ)

/-- `Pathfinder.get_neighbors`: the eight neighbours that are walkable, in
the source's direction order. -/
def get_neighbors (lvl : Level) (x y : ℤ) : List (ℤ × ℤ) :=
  ((([(0, 1), (1, 0), (0, -1), (-1, 0), (1, 1), (-1, 1), (1, -1), (-1, -1)] :
      List (ℤ × ℤ)).map
    (fun d => (x + d.1, y + d.2))).filter (fun n => lvl.is_walkable n.1 n.2))

/-- The `(dx, dy)` offsets scanned by `_find_nearest_walkable` at a given
radius: `dx` from `-radius` to `radius` (outer), `dy` likewise (inner),
keeping `|dx| + |dy| == radius`. -/
def ringOffsets (radius : ℕ) : List (ℤ × ℤ) :=
  ((List.range (2 * radius + 1)).map (fun i : ℕ => (i : ℤ) - radius)).flatMap
    (fun dx =>
      ((List.range (2 * radius + 1)).map (fun i : ℕ => (i : ℤ) - radius)).filterMap
        (fun dy => if dx.natAbs + dy.natAbs = radius then some (dx, dy) else none))

/-- One radius step of `_find_nearest_walkable`: the first walkable tile
on the diamond ring of the given radius, in scan order. -/
def ringProbe (lvl : Level) (x y : ℤ) (radius : ℕ) : Option (ℤ × ℤ) :=
  (ringOffsets radius).findSome? (fun d =>
    if lvl.is_walkable (x + d.1) (y + d.2) then some (x + d.1, y + d.2)
    else none)

/-- `Pathfinder._find_nearest_walkable`: expand diamond rings of radius
1 up to `max_radius` (default 5), returning the first walkable tile in
scan order, or the original coordinates when none is found. -/
def find_nearest_walkable (lvl : Level) (x y : ℤ) (max_radius : ℕ := 5) : ℤ × ℤ :=
  match (List.range max_radius).findSome? (fun i => ringProbe lvl x y (i + 1)) with
  | some c => c
  | none => (x, y)

/-- Path reconstruction: walk the parent chain appending tile-center world
coordinates (`x * tile_size + tile_size // 2`); the caller reverses. -/
def Node.trace (ts : ℤ) : Node → List (ℚ × ℚ)
  | .mk x y _ _ parent =>
    (((x * ts + ts / 2 : ℤ) : ℚ), ((y * ts + ts / 2 : ℤ) : ℚ)) ::
      (match parent with
       | some p => p.trace ts
       | none => [])

/-- `heapq.heappop` under `Node.__lt__` (comparison on `f` only): remove a
minimal-`f` node.  The binary-heap's order among equal keys is not
specified by the source; the embedding removes the first minimal one. -/
def popMin : List Node → Option (Node × List Node)
  | [] => none
  | n :: rest =>
    match popMin rest with
    | none => some (n, [])
    | some (m, rest') => if m.f < n.f then some (m, n :: rest') else some (n, rest)

/-- The `while open_set:` loop of `Pathfinder.find_path`, with explicit
fuel (one unit per iteration; the fuel supplied by `find_path` is larger
than the iteration count of any terminating run we reason about, and the
fuel-exhaustion exit returns the same no-path fallback).  `closed_set`
is kept as a membership list. -/
def astarLoop (lvl : Level) (ts : ℤ) (goal : ℤ × ℤ) (goal_world : ℚ × ℚ) :
    ℕ → List Node → List (ℤ × ℤ) → List (ℚ × ℚ)
  | fuel, open_set, closed_set =>
    match popMin open_set with
    | none => [goal_world]
    | some (current, rest) =>
      match fuel with
      | 0 => [goal_world]
      | fuel + 1 =>
        if (current.x, current.y) ∈ closed_set then
          astarLoop lvl ts goal goal_world fuel rest closed_set
        else
          let closed' := closed_set ++ [(current.x, current.y)]
          if current.x = goal.1 ∧ current.y = goal.2 then (current.trace ts).reverse
          else
            let pushes := (get_neighbors lvl current.x current.y).filterMap
              (fun n =>
                if (n.1, n.2) ∈ closed' then none
                else
                  let is_diagonal :=
                    (n.1 - current.x).natAbs + (n.2 - current.y).natAbs = 2
                  let cost : ℚ := if is_diagonal then 1414/1000 else 1
                  some (Node.mk n.1 n.2 (current.g + cost)
                    (heuristic n.1 n.2 goal.1 goal.2) (some current)))
            astarLoop lvl ts goal goal_world fuel (rest ++ pushes) closed'

/-- `Pathfinder.find_path` (pathfinding.py): world-to-tile conversion
(`int(w // tile_size)`, i.e. floor), snap non-walkable goal then start to
the nearest walkable tile, A* search, with the single-waypoint fallback
`[(goal_x, goal_y)]` when no path is found. -/
def find_path (lvl : Level) (ts : ℤ) (start_x start_y goal_x goal_y : ℚ) :
    List (ℚ × ℚ) :=
  let start_tile : ℤ × ℤ := (⌊start_x / (ts : ℚ)⌋, ⌊start_y / (ts : ℚ)⌋)
  let goal_tile : ℤ × ℤ := (⌊goal_x / (ts : ℚ)⌋, ⌊goal_y / (ts : ℚ)⌋)
  let goal_tile :=
    if ¬ lvl.is_walkable goal_tile.1 goal_tile.2 then
      find_nearest_walkable lvl goal_tile.1 goal_tile.2 5
    else goal_tile
  let start_tile :=
    if ¬ lvl.is_walkable start_tile.1 start_tile.2 then
      find_nearest_walkable lvl start_tile.1 start_tile.2 5
    else start_tile
  let start_node : Node :=
    .mk start_tile.1 start_tile.2 0
      (heuristic start_tile.1 start_tile.2 goal_tile.1 goal_tile.2) none
  astarLoop lvl ts goal_tile (goal_x, goal_y)
    (((lvl.width.toNat + 1) * (lvl.height.toNat + 1)) * 16 + 1) [start_node] []

end Game

namespace Game

/-! ### Status-effect helper lemmas -/

theorem addEffectList_of_not_mem (e : StatusEffect) (l : List StatusEffect)
    (h : ∀ x ∈ l, x.effect_type ≠ e.effect_type) :
    addEffectList e l = l ++ [e] := by
  induction l with
  | nil => rfl
  | cons x rest ih =>
    rw [addEffectList, if_neg (by simpa using h x (List.mem_cons_self x rest))]
    simp only [List.cons_append, List.cons.injEq, true_and]
    exact ih (fun y hy => h y (List.mem_cons_of_mem x hy))

theorem addEffectList_of_present (e : StatusEffect) (l : List StatusEffect)
    (hnd : (l.map StatusEffect.effect_type).Nodup)
    (h : ∃ x ∈ l, x.effect_type = e.effect_type) :
    addEffectList e l =
      l.map (fun x =>
        if x.effect_type = e.effect_type then { x with duration := e.duration }
        else x) := by
  induction l with
  | nil => simp at h
  | cons x rest ih =>
    simp only [List.map_cons, List.nodup_cons, List.mem_map] at hnd
    by_cases hx : x.effect_type = e.effect_type
    · rw [addEffectList, if_pos hx, List.map_cons, if_pos hx]
      have : rest.map (fun y =>
          if y.effect_type = e.effect_type then { y with duration := e.duration }
          else y) = rest := by
        rw [show rest = rest.map id from (List.map_id rest).symm]
        rw [List.map_map]
        apply List.map_congr_left
        intro y hy
        simp only [Function.comp_apply, List.map_id, id_eq]
        rw [if_neg]
        intro hye
        exact hnd.1 ⟨y, by simpa using hy, by rw [hye, hx]⟩
      rw [this]
    · rw [addEffectList, if_neg hx, List.map_cons, if_neg hx]
      rcases h with ⟨w, hw, hwe⟩
      rcases List.mem_cons.mp hw with rfl | hw'
      · exact absurd hwe hx
      · rw [ih hnd.2 ⟨w, hw', hwe⟩]

theorem addEffectList_kinds_nodup (e : StatusEffect) (l : List StatusEffect)
    (hnd : (l.map StatusEffect.effect_type).Nodup) :
    ((addEffectList e l).map StatusEffect.effect_type).Nodup := by
  by_cases h : ∃ x ∈ l, x.effect_type = e.effect_type
  · rw [addEffectList_of_present e l hnd h, List.map_map]
    have : (StatusEffect.effect_type ∘ fun x =>
        if x.effect_type = e.effect_type then { x with duration := e.duration }
        else x) = StatusEffect.effect_type := by
      funext x
      by_cases hx : x.effect_type = e.effect_type <;> simp [hx]
    rw [this]
    exact hnd
  · push_neg at h
    rw [addEffectList_of_not_mem e l (fun x hx => h x hx), List.map_append]
    simp only [List.map_cons, List.map_nil, List.nodup_append]
    refine ⟨hnd, List.nodup_singleton _, ?_⟩
    intro a ha hb
    simp only [List.mem_singleton] at hb
    rcases List.mem_map.mp ha with ⟨x, hx, rfl⟩
    exact h x hx (by rw [hb])

/-! ### Claim theorems C1, C2 -/

/-- C1: for `0 <= hp <= max_hp` and `d >= 0`, `Health.take_damage d`
returns `min d hp`, leaves `hp = max 0 (hp - d)`, and the resulting hp is
neither negative nor above `max_hp` (which is unchanged). -/
theorem c1_health_take_damage (h : Health) (d : ℤ)
    (hpl : 0 ≤ h.hp) (hpu : h.hp ≤ h.max_hp) (hd : 0 ≤ d) :
    (h.take_damage d).1 = min d h.hp ∧
    (h.take_damage d).2.hp = max 0 (h.hp - d) ∧
    0 ≤ (h.take_damage d).2.hp ∧
    (h.take_damage d).2.hp ≤ (h.take_damage d).2.max_hp ∧
    (h.take_damage d).2.max_hp = h.max_hp := by
  refine ⟨?_, ?_, ?_, ?_, ?_⟩ <;> simp [Health.take_damage] <;> omega

/-- Witness for C1 at `Health(max_hp=100, hp=50)`, damage 70. -/
theorem c1_health_take_damage_witness :
    ((0 : ℤ) ≤ 50 ∧ (50 : ℤ) ≤ 100 ∧ (0 : ℤ) ≤ 70) ∧
    (((Health.mk 100 50).take_damage 70).1 = min 70 50 ∧
      ((Health.mk 100 50).take_damage 70).2.hp = max 0 (50 - 70) ∧
      0 ≤ ((Health.mk 100 50).take_damage 70).2.hp ∧
      ((Health.mk 100 50).take_damage 70).2.hp ≤
        ((Health.mk 100 50).take_damage 70).2.max_hp ∧
      ((Health.mk 100 50).take_damage 70).2.max_hp = 100) :=
  ⟨⟨by norm_num, by norm_num, by norm_num⟩,
    c1_health_take_damage ⟨100, 50⟩ 70 (by norm_num) (by norm_num) (by norm_num)⟩

/-- C2 counterexample: with base 3, bonus 0 and crit multiplier 1.9, a
forced crit yields `int(3 * 1.9) = int(5.7) = 5`, while the claimed
`round((3+0) * 1.9) = round(5.7) = 6`; the code truncates instead of
rounding. -/
theorem c2_round_counterexample :
    ((Damage.mk 3 0 (19/10) 0).calculate_damage (some true) 0).1 = 5 ∧
    round ((((Damage.mk 3 0 (19/10) 0).base +
        (Damage.mk 3 0 (19/10) 0).bonus_damage : ℤ) : ℚ) *
        (Damage.mk 3 0 (19/10) 0).crit_multiplier) = 6 := by
  constructor
  · norm_num [Damage.calculate_damage, pyIntQ]
  · norm_num [round_eq]

/-- C2 amended: with forced crit, `calculate_damage` returns the
Python-`int` truncation of `(base + bonus) * crit_multiplier` — for a
nonnegative product this is the floor, not the rounding of the claim —
and with forced non-crit it returns exactly `base + bonus`; the returned
crit flag equals the forced one. -/
theorem c2_calculate_damage_amended (d : Damage) (roll : ℚ)
    (hB : 0 ≤ d.base + d.bonus_damage) (hM : 0 ≤ d.crit_multiplier) :
    (d.calculate_damage (some true) roll).1 =
      ⌊((d.base + d.bonus_damage : ℤ) : ℚ) * d.crit_multiplier⌋ ∧
    (d.calculate_damage (some true) roll).2 = true ∧
    (d.calculate_damage (some false) roll).1 = d.base + d.bonus_damage ∧
    (d.calculate_damage (some false) roll).2 = false := by
  have hprod : 0 ≤ ((d.base + d.bonus_damage : ℤ) : ℚ) * d.crit_multiplier := by
    apply mul_nonneg _ hM
    exact_mod_cast hB
  refine ⟨?_, rfl, rfl, rfl⟩
  simp only [Damage.calculate_damage, if_pos]
  rw [pyIntQ_of_nonneg hprod]

/-- Witness for the amended C2 at `Damage(base=3, crit_multiplier=1.9)`. -/
theorem c2_calculate_damage_amended_witness :
    ((0 : ℤ) ≤ 3 + 0 ∧ (0 : ℚ) ≤ 19/10) ∧
    (((Damage.mk 3 0 (19/10) 0).calculate_damage (some true) 0).1 =
        ⌊(((3 : ℤ) + 0 : ℤ) : ℚ) * (19/10 : ℚ)⌋ ∧
      ((Damage.mk 3 0 (19/10) 0).calculate_damage (some true) 0).2 = true ∧
      ((Damage.mk 3 0 (19/10) 0).calculate_damage (some false) 0).1 = 3 + 0 ∧
      ((Damage.mk 3 0 (19/10) 0).calculate_damage (some false) 0).2 = false) :=
  ⟨⟨by norm_num, by norm_num⟩,
    c2_calculate_damage_amended (Damage.mk 3 0 (19/10) 0) 0 (by norm_num) (by norm_num)⟩

end Game

namespace Game

/-- C9: status-effect operations preserve the at-most-one-per-kind
invariant; adding a present kind refreshes only that effect's duration
(same length, values untouched), adding an absent kind appends; `update`
decrements every duration by `dt` and keeps an effect exactly when its
new duration is positive. -/
theorem c9_status_effects_invariant (s : StatusEffects) (e : StatusEffect)
    (dt : ℚ) (t : StatusEffectType)
    (hinv : (s.effects.map StatusEffect.effect_type).Nodup) :
    ((s.add_effect e).effects.map StatusEffect.effect_type).Nodup ∧
    ((s.remove_effect t).effects.map StatusEffect.effect_type).Nodup ∧
    (((s.update dt).effects.map StatusEffect.effect_type).Nodup) ∧
    (s.has_effect e.effect_type = true →
      (s.add_effect e).effects =
        s.effects.map (fun x =>
          if x.effect_type = e.effect_type then { x with duration := e.duration }
          else x) ∧
      (s.add_effect e).effects.length = s.effects.length) ∧
    (s.has_effect e.effect_type = false →
      (s.add_effect e).effects = s.effects ++ [e]) ∧
    (∀ x, x ∈ (s.update dt).effects ↔
      ∃ y ∈ s.effects, x = { y with duration := y.duration - dt } ∧
        ¬ x.duration ≤ 0) := by
  have hex : s.has_effect e.effect_type = true ↔
      ∃ x ∈ s.effects, x.effect_type = e.effect_type := by
    simp [StatusEffects.has_effect]
  have hdecmap : ((s.effects.map
      (fun x => { x with duration := x.duration - dt })).map
        StatusEffect.effect_type) = s.effects.map StatusEffect.effect_type := by
    rw [List.map_map]
    rfl
  refine ⟨?_, ?_, ?_, ?_, ?_, ?_⟩
  · exact addEffectList_kinds_nodup e s.effects hinv
  · have hsub : ((s.remove_effect t).effects.map StatusEffect.effect_type).Sublist
        (s.effects.map StatusEffect.effect_type) :=
      (List.filter_sublist s.effects).map StatusEffect.effect_type
    exact hinv.sublist hsub
  · have hsub : ((s.update dt).effects.map StatusEffect.effect_type).Sublist
        ((s.effects.map (fun x => { x with duration := x.duration - dt })).map
          StatusEffect.effect_type) :=
      (List.filter_sublist _).map StatusEffect.effect_type
    rw [hdecmap] at hsub
    exact hinv.sublist hsub
  · intro hp
    have heq : (s.add_effect e).effects =
        s.effects.map (fun x =>
          if x.effect_type = e.effect_type then { x with duration := e.duration }
          else x) :=
      addEffectList_of_present e s.effects hinv (hex.mp hp)
    exact ⟨heq, by rw [heq, List.length_map]⟩
  · intro hp
    apply addEffectList_of_not_mem
    intro x hx hxe
    have hcon : s.has_effect e.effect_type = true := hex.mpr ⟨x, hx, hxe⟩
    rw [hcon] at hp
    cases hp
  · intro x
    simp only [StatusEffects.update, List.mem_filter, List.mem_map,
      decide_eq_true_eq]
    constructor
    · rintro ⟨⟨y, hy, rfl⟩, hd⟩
      exact ⟨y, hy, rfl, hd⟩
    · rintro ⟨y, hy, rfl, hd⟩
      exact ⟨⟨y, hy, rfl⟩, hd⟩

/-- Witness for C9 on a two-effect set: refresh an existing `poison`. -/
theorem c9_status_effects_invariant_witness :
    ((([⟨.poison, 2, 5, 1, 0⟩, ⟨.slow, 1, 0, 1, 0⟩] :
        List StatusEffect).map StatusEffect.effect_type).Nodup) ∧
    (((StatusEffects.mk [⟨.poison, 2, 5, 1, 0⟩, ⟨.slow, 1, 0, 1, 0⟩]).add_effect
        ⟨.poison, 9, 7, 1, 0⟩).effects.map StatusEffect.effect_type).Nodup :=
  ⟨by decide,
    (c9_status_effects_invariant
      (StatusEffects.mk [⟨.poison, 2, 5, 1, 0⟩, ⟨.slow, 1, 0, 1, 0⟩])
      ⟨.poison, 9, 7, 1, 0⟩ 1 .burn (by decide)).1⟩

/-- Full behaviour of the `while` loop in `add_xp` under the claim's
preconditions: the loop exits within the given fuel, the final xp is
nonnegative and below the final threshold, the level never decreases, and
the leveled-up flag is set exactly when an iteration ran. -/
theorem levelLoop_spec (fuel : ℕ) : ∀ (xp nxt lvl : ℤ) (lu : Bool),
    1 ≤ nxt → 0 ≤ xp → xp.toNat < fuel →
    (levelLoop fuel xp nxt lvl lu).2.2.2.2 = true ∧
    0 ≤ (levelLoop fuel xp nxt lvl lu).1 ∧
    (levelLoop fuel xp nxt lvl lu).1 < (levelLoop fuel xp nxt lvl lu).2.1 ∧
    lvl ≤ (levelLoop fuel xp nxt lvl lu).2.2.1 ∧
    ((levelLoop fuel xp nxt lvl lu).2.2.2.1 = true ↔
      (lu = true ∨ lvl < (levelLoop fuel xp nxt lvl lu).2.2.1)) := by
  induction fuel with
  | zero =>
    intro xp nxt lvl lu h1 h2 h3
    omega
  | succ fuel ih =>
    intro xp nxt lvl lu h1 h2 h3
    by_cases hc : nxt ≤ xp
    · have hny : 1 ≤ pyIntQ ((nxt : ℚ) * (3/2)) := by
        rw [pyIntQ_of_nonneg (by positivity)]
        rw [Int.le_floor]
        have : (1 : ℚ) ≤ (nxt : ℚ) := by exact_mod_cast h1
        push_cast
        linarith
      have hrec := ih (xp - nxt) (pyIntQ ((nxt : ℚ) * (3/2))) (lvl + 1) true hny
        (by omega) (by omega)
      simp only [levelLoop, if_pos hc]
      refine ⟨hrec.1, hrec.2.1, hrec.2.2.1, by
        have := hrec.2.2.2.1
        omega, ?_⟩
      have h4 := hrec.2.2.2.1
      have h5 := hrec.2.2.2.2
      constructor
      · intro _
        right
        omega
      · intro _
        exact h5.mpr (Or.inl rfl)
    · rw [show levelLoop (fuel + 1) xp nxt lvl lu = (xp, nxt, lvl, lu, true) from
        by simp only [levelLoop, if_neg hc]]
      exact ⟨rfl, h2, (by omega : xp < nxt), le_refl _,
        ⟨fun h => Or.inl h, fun h => h.resolve_right (lt_irrefl lvl)⟩⟩

/-- C10: under `xp >= 0`, `next_xp >= 1`, `xp_multiplier >= 0` and
`amount >= 0`, `Experience.add_xp` terminates (the level-up loop exits
within the provided fuel), afterwards `0 <= xp < next_xp`, and it returns
`true` exactly when at least one level was gained. -/
theorem c10_add_xp_terminates (e : Experience) (amount : ℤ)
    (hxp : 0 ≤ e.xp) (hnxt : 1 ≤ e.next_xp) (hmul : 0 ≤ e.xp_multiplier)
    (hamt : 0 ≤ amount) :
    e.add_xp_terminates amount = true ∧
    0 ≤ (e.add_xp amount).1.xp ∧
    (e.add_xp amount).1.xp < (e.add_xp amount).1.next_xp ∧
    ((e.add_xp amount).2 = true ↔ e.level < (e.add_xp amount).1.level) := by
  have hadj : 0 ≤ pyIntQ ((amount : ℚ) * e.xp_multiplier) := by
    have hq : (0 : ℚ) ≤ (amount : ℚ) * e.xp_multiplier :=
      mul_nonneg (by exact_mod_cast hamt) hmul
    rw [pyIntQ_of_nonneg hq]
    exact Int.le_floor.mpr (by exact_mod_cast hq)
  have h0 : 0 ≤ e.xp + pyIntQ ((amount : ℚ) * e.xp_multiplier) := by omega
  have hrec := levelLoop_spec
    ((e.xp + pyIntQ ((amount : ℚ) * e.xp_multiplier)).toNat + 1)
    (e.xp + pyIntQ ((amount : ℚ) * e.xp_multiplier)) e.next_xp e.level false
    hnxt h0 (by omega)
  simp only [Experience.add_xp, Experience.add_xp_terminates]
  refine ⟨hrec.1, hrec.2.1, hrec.2.2.1, ?_⟩
  have h5 := hrec.2.2.2.2
  simpa using h5

/-- Witness for C10 at `Experience(level=1, xp=0, next_xp=50)` with 75 XP. -/
theorem c10_add_xp_terminates_witness :
    ((0 : ℤ) ≤ 0 ∧ (1 : ℤ) ≤ 50 ∧ (0 : ℚ) ≤ 1 ∧ (0 : ℤ) ≤ 75) ∧
    ((Experience.mk 1 0 50 1).add_xp_terminates 75 = true ∧
      0 ≤ ((Experience.mk 1 0 50 1).add_xp 75).1.xp ∧
      ((Experience.mk 1 0 50 1).add_xp 75).1.xp <
        ((Experience.mk 1 0 50 1).add_xp 75).1.next_xp ∧
      (((Experience.mk 1 0 50 1).add_xp 75).2 = true ↔
        1 < ((Experience.mk 1 0 50 1).add_xp 75).1.level)) :=
  ⟨⟨by norm_num, by norm_num, by norm_num, by norm_num⟩,
    c10_add_xp_terminates ⟨1, 0, 50, 1⟩ 75 (by norm_num) (by norm_num)
      (by norm_num) (by norm_num)⟩

end Game

namespace Game

/-! ### Entity-store helper lemmas -/

theorem get_entity_remove_self (em : EntityManager) (i : ℤ) :
    (em.remove_entity i).get_entity i = none := by
  simp only [EntityManager.remove_entity, EntityManager.get_entity]
  induction em.entities with
  | nil => rfl
  | cons p rest ih =>
    by_cases hp : p.1 = i
    · rw [List.filter_cons_of_neg (by simpa using hp)]
      exact ih
    · rw [List.filter_cons_of_pos (by simpa using hp),
        List.find?_cons_of_neg _ (by simpa using hp)]
      exact ih

theorem get_entity_remove_other (em : EntityManager) (i j : ℤ) (h : j ≠ i) :
    (em.remove_entity i).get_entity j = em.get_entity j := by
  simp only [EntityManager.remove_entity, EntityManager.get_entity]
  suffices hs : (em.entities.filter (fun p => decide ¬ p.1 = i)).find?
      (fun p => decide (p.1 = j)) = em.entities.find? (fun p => decide (p.1 = j)) by
    rw [hs]
  induction em.entities with
  | nil => rfl
  | cons p rest ih =>
    by_cases hp : p.1 = i
    · have hj : ¬ p.1 = j := by rw [hp]; exact fun hc => h hc.symm
      rw [List.filter_cons_of_neg (by simpa using hp), ih,
        List.find?_cons_of_neg rest (by simpa using hj)]
    · rw [List.filter_cons_of_pos (by simpa using hp)]
      by_cases hj : p.1 = j
      · rw [List.find?_cons_of_pos _ (by simpa using hj),
          List.find?_cons_of_pos rest (by simpa using hj)]
      · rw [List.find?_cons_of_neg _ (by simpa using hj),
          List.find?_cons_of_neg rest (by simpa using hj), ih]

theorem map_set_find (i : ℤ) (e : Entity) : ∀ (l : List (ℤ × Entity)) (x : Entity),
    Option.map Prod.snd (l.find? (fun p => decide (p.1 = i))) = some x →
    Option.map Prod.snd ((l.map (fun p => if p.1 = i then (i, e) else p)).find?
      (fun p => decide (p.1 = i))) = some e
  | [], x, h => by simp at h
  | p :: rest, x, h => by
    by_cases hp : p.1 = i
    · rw [List.map_cons, if_pos hp, List.find?_cons_of_pos _ (by simp)]
      rfl
    · rw [List.map_cons, if_neg hp, List.find?_cons_of_neg _ (by simpa using hp)]
      rw [List.find?_cons_of_neg rest (by simpa using hp)] at h
      exact map_set_find i e rest x h

theorem map_set_find_other (i j : ℤ) (e : Entity) (h : j ≠ i) :
    ∀ (l : List (ℤ × Entity)),
    ((l.map (fun p => if p.1 = i then (i, e) else p)).find?
      (fun p => decide (p.1 = j))) = l.find? (fun p => decide (p.1 = j))
  | [] => rfl
  | p :: rest => by
    have hij : ¬ i = j := fun hc => h hc.symm
    by_cases hp : p.1 = i
    · have hj' : ¬ p.1 = j := by rw [hp]; exact hij
      rw [List.map_cons, if_pos hp,
        List.find?_cons_of_neg _ (by simpa using hij),
        List.find?_cons_of_neg rest (by simpa using hj')]
      exact map_set_find_other i j e h rest
    · rw [List.map_cons, if_neg hp]
      by_cases hj : p.1 = j
      · rw [List.find?_cons_of_pos _ (by simpa using hj),
          List.find?_cons_of_pos rest (by simpa using hj)]
      · rw [List.find?_cons_of_neg _ (by simpa using hj),
          List.find?_cons_of_neg rest (by simpa using hj)]
        exact map_set_find_other i j e h rest

theorem get_entity_set_self (em : EntityManager) (i : ℤ) (e x : Entity)
    (h : em.get_entity i = some x) :
    (em.set_entity i e).get_entity i = some e := by
  simp only [EntityManager.set_entity, EntityManager.get_entity] at h ⊢
  exact map_set_find i e em.entities x h

theorem get_entity_set_other (em : EntityManager) (i j : ℤ) (e : Entity)
    (h : j ≠ i) :
    (em.set_entity i e).get_entity j = em.get_entity j := by
  simp only [EntityManager.set_entity, EntityManager.get_entity]
  rw [map_set_find_other i j e h em.entities]

/-- C4: whenever the target's faction tag is `enemy` and the dodge sample
is below 0.1, `apply_damage` returns 0, leaves the entity store (hence the
target's hp) unchanged, and emits no event — for every incoming damage
amount alike. -/
theorem c4_enemy_dodge (st : GameState) (target_id damage attacker_id : ℤ)
    (is_crit : Bool) (target : Entity) (h : Health) (fac : Faction)
    (hget : st.em.get_entity target_id = some target)
    (hh : target.health = some h)
    (hf : target.faction = some fac)
    (htag : fac.tag = FactionType.enemy)
    (hroll : st.rng st.rngIdx < 1/10) :
    (apply_damage st target_id damage attacker_id is_crit).1 = 0 ∧
    (apply_damage st target_id damage attacker_id is_crit).2.em = st.em ∧
    (apply_damage st target_id damage attacker_id is_crit).2.events = st.events := by
  simp only [apply_damage, hget, hh, hf, htag, GameState.draw, if_pos hroll]
  exact ⟨rfl, rfl, rfl⟩

end Game

namespace Game

/-- Concrete entity for the C4 witness. -/
def c4Ent : Entity :=
  { health := some ⟨30, 30⟩, faction := some ⟨FactionType.enemy⟩ }

/-- Concrete state for the C4 witness: dodge sample 0 < 0.1. -/
def c4St : GameState :=
  { em := { entities := [(7, c4Ent)], next_id := 8 },
    rng := fun _ => 0, rngIdx := 0, events := [] }

/-- Witness for C4: entity 7 is an enemy, the sample is 0 < 0.1, and
`apply_damage` with 12 damage returns 0 touching neither store nor events. -/
theorem c4_enemy_dodge_witness :
    (c4St.em.get_entity 7 = some c4Ent ∧ c4Ent.health = some ⟨30, 30⟩ ∧
      c4Ent.faction = some ⟨FactionType.enemy⟩ ∧
      (Faction.mk FactionType.enemy).tag = FactionType.enemy ∧
      c4St.rng c4St.rngIdx < 1/10) ∧
    ((apply_damage c4St 7 12 1 false).1 = 0 ∧
      (apply_damage c4St 7 12 1 false).2.em = c4St.em ∧
      (apply_damage c4St 7 12 1 false).2.events = c4St.events) :=
  ⟨⟨rfl, rfl, rfl, rfl, by norm_num [c4St]⟩,
    c4_enemy_dodge c4St 7 12 1 false c4Ent ⟨30, 30⟩ ⟨FactionType.enemy⟩ rfl rfl
      rfl rfl (by norm_num [c4St])⟩

/-- Dead boss entity for the C8 counterexample. -/
def c8Boss : Entity :=
  { health := some ⟨200, 0⟩, faction := some ⟨FactionType.boss⟩,
    experience := some ⟨1, 0, 50, 1⟩ }

/-- Killer entity for the C8 counterexample. -/
def c8Killer : Entity :=
  { faction := some ⟨FactionType.player⟩, experience := some ⟨1, 0, 50, 1⟩ }

/-- Concrete state for the C8 counterexample. -/
def c8St : GameState :=
  { em := { entities := [(1, c8Boss), (2, c8Killer)], next_id := 3 },
    rng := fun _ => 1, rngIdx := 0, events := [] }

/-- C8 counterexample: the claim exempts bosses from removal, but
`handle_death` removes the dead entity in the enemy-or-boss branch without
any boss check: after `handle_death` on the boss-faction entity 1, the
entity store no longer contains it. -/
theorem c8_boss_removed_counterexample :
    c8St.em.get_entity 1 = some c8Boss ∧
    c8Boss.faction = some ⟨FactionType.boss⟩ ∧
    (handle_death c8St 1 2).em.get_entity 1 = none := by
  refine ⟨rfl, rfl, ?_⟩
  have h1 : c8St.em.get_entity 1 = some c8Boss := rfl
  have h2 : c8St.em.get_entity 2 = some c8Killer := rfl
  simp only [handle_death, h1, h2, c8Boss, c8Killer]
  simp only [apply_ite GameState.em, GameState.emit, ite_self]
  exact get_entity_remove_self _ 1

end Game

namespace Game

/-- C8 amended: when a dead entity with enemy or boss faction and an
Experience of level `L >= 0` is processed by `handle_death` with a distinct
killer holding Faction and Experience, the killer is granted exactly
`floor(10 * (1 + L * 0.1))` XP — tripled for boss faction — through
`add_xp`, a level-up event is emitted exactly when `add_xp` reports one,
the enemy-killed event is emitted, and the dead entity is removed from the
store, bosses included (the claim's boss exemption does not hold). -/
theorem c8_handle_death_amended (st : GameState) (eid kid : ℤ)
    (ent killer : Entity) (fac kfac : Faction) (exp kexp : Experience)
    (hne : eid ≠ kid)
    (hent : st.em.get_entity eid = some ent)
    (hkil : st.em.get_entity kid = some killer)
    (hf : ent.faction = some fac)
    (hkf : killer.faction = some kfac)
    (htag : fac.tag = FactionType.enemy ∨ fac.tag = FactionType.boss)
    (hexp : ent.experience = some exp)
    (hkexp : killer.experience = some kexp)
    (hlvl : 0 ≤ exp.level) :
    (handle_death st eid kid).em.get_entity eid = none ∧
    (handle_death st eid kid).em.get_entity kid =
      some { killer with experience := some (kexp.add_xp ((if fac.tag = FactionType.boss then 3 else 1) * ⌊(10 : ℚ) * (1 + (exp.level : ℚ) * (1/10))⌋)).1 } ∧
    (handle_death st eid kid).events =
      st.events ++
        (if (kexp.add_xp ((if fac.tag = FactionType.boss then 3 else 1) *
              ⌊(10 : ℚ) * (1 + (exp.level : ℚ) * (1/10))⌋)).2 then
          [GameEvent.level_up kid
            (kexp.add_xp ((if fac.tag = FactionType.boss then 3 else 1) *
              ⌊(10 : ℚ) * (1 + (exp.level : ℚ) * (1/10))⌋)).1.level]
        else []) ++ [GameEvent.enemy_killed eid kid] := by
  have hkne : kid ≠ eid := fun hc => hne hc.symm
  have hLq : (0 : ℚ) ≤ (exp.level : ℚ) := by exact_mod_cast hlvl
  have hbase : (0 : ℚ) ≤ ((10 : ℤ) : ℚ) * (1 + (exp.level : ℚ) * (1/10)) := by
    push_cast
    nlinarith
  have hxp : pyIntQ (((10 : ℤ) : ℚ) * (1 + (exp.level : ℚ) * (1/10))) =
      ⌊(10 : ℚ) * (1 + (exp.level : ℚ) * (1/10))⌋ := by
    rw [pyIntQ_of_nonneg hbase]
    norm_num
  have hxp3 : pyIntQ
      ((( ⌊(10 : ℚ) * (1 + (exp.level : ℚ) * (1/10))⌋ : ℤ) : ℚ) * 3) =
      3 * ⌊(10 : ℚ) * (1 + (exp.level : ℚ) * (1/10))⌋ := by
    rw [show ((( ⌊(10 : ℚ) * (1 + (exp.level : ℚ) * (1/10))⌋ : ℤ) : ℚ) * 3) =
        (((3 * ⌊(10 : ℚ) * (1 + (exp.level : ℚ) * (1/10))⌋ : ℤ) : ℚ)) by
      push_cast
      ring]
    exact pyIntQ_intCast _
  have hnp : ¬ fac.tag = FactionType.player := by
    rcases htag with h | h <;> simp [h]
  simp only [handle_death, hent, hkil, hf, hkf, hexp, hkexp, if_neg hnp,
    if_pos htag, hxp, hxp3]
  have hsel : ((if fac.tag = FactionType.boss then 3 else 1) *
      ⌊(10 : ℚ) * (1 + (exp.level : ℚ) * (1/10))⌋ : ℤ) =
      (if fac.tag = FactionType.boss then
        3 * ⌊(10 : ℚ) * (1 + (exp.level : ℚ) * (1/10))⌋
      else ⌊(10 : ℚ) * (1 + (exp.level : ℚ) * (1/10))⌋) := by
    split <;> ring
  rw [hsel]
  generalize kexp.add_xp
      (if fac.tag = FactionType.boss then
        3 * ⌊(10 : ℚ) * (1 + (exp.level : ℚ) * (1/10))⌋
      else ⌊(10 : ℚ) * (1 + (exp.level : ℚ) * (1/10))⌋) = R
  obtain ⟨R1, R2⟩ := R
  refine ⟨?_, ?_, ?_⟩
  · simp only [apply_ite GameState.em, GameState.emit, ite_self]
    exact get_entity_remove_self _ eid
  · simp only [apply_ite GameState.em, GameState.emit, ite_self]
    rw [get_entity_remove_other _ eid kid hkne]
    exact get_entity_set_self st.em kid _ killer hkil
  · cases R2 <;> simp [GameState.emit]

end Game

namespace Game

/-- C5: a hitbox whose current frame is `start_frame - 1` is inactive and
a hit check over a manager holding it registers no hits; and after any
`update`, every surviving hitbox satisfies `current_frame <= end_frame`
(hitboxes past their window are purged). -/
theorem c5_hitbox_window (hb : Hitbox)
    (h : hb.current_frame = hb.start_frame - 1) :
    hb.is_active = false ∧
    (∀ (attacker_id : ℤ) (em : EntityManager) (ex : List ℤ) (fc : ℤ),
      (HitboxManager.mk [hb] fc).check_hits attacker_id em ex = []) ∧
    (∀ (m : HitboxManager), ∀ hb' ∈ m.update.active_hitboxes,
      hb'.current_frame ≤ hb'.end_frame) := by
  have hina : hb.is_active = false := by
    simp only [Hitbox.is_active, h, decide_eq_false_iff_not]
    omega
  refine ⟨hina, ?_, ?_⟩
  · intro attacker_id em ex fc
    simp only [HitboxManager.check_hits, checkHitsLoop, hina,
      Bool.false_eq_true, if_false]
  · intro m hb' hmem
    simp only [HitboxManager.update, List.mem_filter] at hmem
    have := hmem.2
    simp only [decide_eq_true_eq] at this
    omega

/-- Concrete inactive hitbox for the C5 witness (window `[2, 3]`, frame 1). -/
def c5Hb : Hitbox := .line ⟨(0, 0), (8, 0), 6, 2, 3, 1⟩

/-- Witness for C5: the window `[2, 3]` hitbox at frame `1 = 2 - 1` is
inactive and a hit check against a nonempty store registers nothing. -/
theorem c5_hitbox_window_witness :
    c5Hb.current_frame = c5Hb.start_frame - 1 ∧
    c5Hb.is_active = false ∧
    (HitboxManager.mk [c5Hb] 1).check_hits 9
      ⟨[(2, { transform := some ⟨4, 0, 0, 0⟩, collider := some {} })], 3⟩ [] = [] :=
  ⟨rfl, (c5_hitbox_window c5Hb rfl).1,
    (c5_hitbox_window c5Hb rfl).2.1 9
      ⟨[(2, { transform := some ⟨4, 0, 0, 0⟩, collider := some {} })], 3⟩ [] 1⟩

theorem hitboxScan_nodup (attacker_id : ℤ) (ex : List ℤ) (hb : Hitbox) :
    ∀ (ents : List (ℤ × Entity)) (acc : List ℤ), acc.Nodup →
    (hitboxScan attacker_id ex hb ents acc).Nodup
  | [], acc, h => h
  | (eid, e) :: rest, acc, h => by
    rw [hitboxScan]
    by_cases hskip : eid = attacker_id ∨ eid ∈ ex ∨ eid ∈ acc
    · rw [if_pos hskip]
      exact hitboxScan_nodup attacker_id ex hb rest acc h
    · rw [if_neg hskip]
      push_neg at hskip
      match htr : e.transform, hcl : e.collider with
      | some t, some c =>
        dsimp only
        by_cases hgeo : hb.check_entity t c
        · rw [if_pos hgeo]
          refine hitboxScan_nodup attacker_id ex hb rest (acc ++ [eid]) ?_
          simp [List.nodup_append, h, hskip.2.2]
        · rw [if_neg hgeo]
          exact hitboxScan_nodup attacker_id ex hb rest acc h
      | some _, none => exact hitboxScan_nodup attacker_id ex hb rest acc h
      | none, some _ => exact hitboxScan_nodup attacker_id ex hb rest acc h
      | none, none => exact hitboxScan_nodup attacker_id ex hb rest acc h

theorem checkHitsLoop_nodup (attacker_id : ℤ) (ex : List ℤ)
    (ents : List (ℤ × Entity)) :
    ∀ (hbs : List Hitbox) (acc : List ℤ), acc.Nodup →
    (checkHitsLoop attacker_id ex ents hbs acc).Nodup
  | [], acc, h => h
  | hb :: rest, acc, h => by
    rw [checkHitsLoop]
    by_cases hact : hb.is_active = true
    · rw [if_pos hact]
      exact checkHitsLoop_nodup attacker_id ex ents rest _
        (hitboxScan_nodup attacker_id ex hb ents acc h)
    · rw [if_neg hact]
      exact checkHitsLoop_nodup attacker_id ex ents rest acc h

/-- C6 amended: within one `check_hits` call each target id is registered
at most once (the returned list has no duplicates, even with several
active hitboxes); but the one-hit guarantee does not extend across the
frames of an activation window, see the counterexample. -/
theorem c6_one_hit_per_call (m : HitboxManager) (attacker_id : ℤ)
    (em : EntityManager) (ex : List ℤ) :
    (m.check_hits attacker_id em ex).Nodup :=
  checkHitsLoop_nodup attacker_id ex em.entities m.active_hitboxes []
    List.nodup_nil

end Game

namespace Game

/-- Target entity sitting at (4, 0) for the C6 counterexample. -/
def c6Target : Entity := { transform := some ⟨4, 0, 0, 0⟩, collider := some {} }

/-- Entity store holding only the target (id 2) for the C6 counterexample. -/
def c6Em : EntityManager := ⟨[(2, c6Target)], 3⟩

/-- The C6 line hitbox from (0,0) to (8,0), width 6, window `[1, 2]`,
at a given current frame. -/
def c6Line (cf : ℤ) : Hitbox := .line ⟨(0, 0), (8, 0), 6, 1, 2, cf⟩

theorem c6_geom (cf : ℤ) :
    (c6Line cf).check_entity ⟨4, 0, 0, 0⟩ {} := by
  refine Or.inl ?_
  simp only [c6Line, Hitbox.check_point, LineHitbox.check_point]
  have h64 : Real.sqrt 64 = 8 := by
    rw [show (64 : ℝ) = 8^2 by norm_num]
    exact Real.sqrt_sq (by norm_num)
  refine ⟨?_, ?_, ?_⟩
  · norm_num [h64]
  · norm_num [h64]
  · norm_num [h64, Real.sqrt_zero]

theorem c6_check_hits_eval (cf : ℤ) (h1 : 1 ≤ cf) (h2 : cf ≤ 2) :
    (HitboxManager.mk [c6Line cf] cf).check_hits 1 c6Em [] = [2] := by
  have hact : (c6Line cf).is_active = true := by
    simp only [c6Line, Hitbox.is_active, Hitbox.start_frame, Hitbox.end_frame,
      Hitbox.current_frame, decide_eq_true_eq]
    exact ⟨h1, h2⟩
  simp only [HitboxManager.check_hits, checkHitsLoop, hact, if_true, c6Em]
  simp only [hitboxScan, c6Target]
  rw [if_neg (by simp)]
  rw [if_pos (c6_geom cf)]
  rfl

/-- C6 counterexample: one line hitbox with activation window `[1, 2]`
covering the target at (4, 0); the hit check of frame 1 and the hit check
of frame 2 each register the target, so the hitbox registers two hits
against the same target within a single activation window. -/
theorem c6_rehit_counterexample :
    (((HitboxManager.mk [] 0).add_line_hitbox (0, 0) (8, 0) 6 1 2).update).check_hits
      1 c6Em [] = [2] ∧
    ((((HitboxManager.mk [] 0).add_line_hitbox (0, 0) (8, 0) 6 1 2).update).update).check_hits
      1 c6Em [] = [2] := by
  have hm1 : ((HitboxManager.mk [] 0).add_line_hitbox (0, 0) (8, 0) 6 1 2).update =
      HitboxManager.mk [c6Line 1] 1 := by
    simp [HitboxManager.add_line_hitbox, HitboxManager.update,
      Hitbox.withCurrentFrame, Hitbox.end_frame, Hitbox.current_frame, c6Line,
      List.filter]
  have hm2 : (HitboxManager.mk [c6Line 1] 1).update =
      HitboxManager.mk [c6Line 2] 2 := by
    simp [HitboxManager.update, Hitbox.withCurrentFrame, Hitbox.end_frame,
      Hitbox.current_frame, c6Line, List.filter]
  rw [hm1, hm2]
  exact ⟨c6_check_hits_eval 1 (by norm_num) (by norm_num),
    c6_check_hits_eval 2 (by norm_num) (by norm_num)⟩

end Game

namespace Game

theorem mem_ringOffsets {r : ℕ} {d : ℤ × ℤ} :
    d ∈ ringOffsets r ↔ d.1.natAbs + d.2.natAbs = r := by
  obtain ⟨dx, dy⟩ := d
  rw [ringOffsets]
  constructor
  · intro hmem
    obtain ⟨a, _ha, hin⟩ := List.mem_flatMap.mp hmem
    obtain ⟨b, _hb, hsome⟩ := List.mem_filterMap.mp hin
    by_cases hcond : a.natAbs + b.natAbs = r
    · rw [if_pos hcond] at hsome
      have h' := Option.some.inj hsome
      rw [Prod.mk.injEq] at h'
      obtain ⟨rfl, rfl⟩ := h'
      simpa using hcond
    · rw [if_neg hcond] at hsome
      cases hsome
  · intro hsum
    have hsum' : dx.natAbs + dy.natAbs = r := by simpa using hsum
    have h1 : dx.natAbs ≤ r := by omega
    have h2 : dy.natAbs ≤ r := by omega
    have hmx : (dx + (r : ℤ)).toNat ∈ List.range (2 * r + 1) :=
      List.mem_range.mpr (by omega)
    have hex : ((dx + (r : ℤ)).toNat : ℤ) - r = dx := by omega
    have hmy : (dy + (r : ℤ)).toNat ∈ List.range (2 * r + 1) :=
      List.mem_range.mpr (by omega)
    have hey : ((dy + (r : ℤ)).toNat : ℤ) - r = dy := by omega
    apply List.mem_flatMap.mpr
    refine ⟨dx, List.mem_map.mpr ⟨_, hmx, hex⟩, ?_⟩
    apply List.mem_filterMap.mpr
    refine ⟨dy, List.mem_map.mpr ⟨_, hmy, hey⟩, ?_⟩
    rw [if_pos hsum']

theorem ringProbe_eq_none_iff {lvl : Level} {x y : ℤ} {r : ℕ} :
    ringProbe lvl x y r = none ↔
    ∀ c : ℤ × ℤ, (c.1 - x).natAbs + (c.2 - y).natAbs = r →
      lvl.is_walkable c.1 c.2 = false := by
  rw [ringProbe, List.findSome?_eq_none_iff]
  constructor
  · intro h c hc
    have hd : (c.1 - x, c.2 - y) ∈ ringOffsets r := mem_ringOffsets.mpr hc
    have := h _ hd
    by_cases hw : lvl.is_walkable (x + (c.1 - x)) (y + (c.2 - y)) = true
    · rw [if_pos hw] at this
      cases this
    · have hxx : x + (c.1 - x) = c.1 := by ring
      have hyy : y + (c.2 - y) = c.2 := by ring
      rw [hxx, hyy] at hw
      simpa using hw
  · intro h d hd
    rw [if_neg]
    intro hw
    have := h (x + d.1, y + d.2) (by simpa using mem_ringOffsets.mp hd)
    rw [this] at hw
    cases hw

theorem ringProbe_eq_some {lvl : Level} {x y : ℤ} {r : ℕ} {c : ℤ × ℤ}
    (h : ringProbe lvl x y r = some c) :
    lvl.is_walkable c.1 c.2 = true ∧ (c.1 - x).natAbs + (c.2 - y).natAbs = r := by
  obtain ⟨d, hd, hf⟩ := List.exists_of_findSome?_eq_some h
  by_cases hw : lvl.is_walkable (x + d.1) (y + d.2) = true
  · rw [if_pos hw] at hf
    obtain rfl : (x + d.1, y + d.2) = c := by simpa using hf
    refine ⟨hw, ?_⟩
    have := mem_ringOffsets.mp hd
    simpa using this
  · rw [if_neg hw] at hf
    cases hf

theorem findSome?_range_none {α : Type} {f : ℕ → Option α} {n : ℕ}
    (h : (List.range n).findSome? f = none) :
    ∀ i < n, f i = none := fun i hi =>
  List.findSome?_eq_none_iff.mp h i (List.mem_range.mpr hi)

theorem findSome?_range_first {α : Type} (f : ℕ → Option α) :
    ∀ (n : ℕ) (a : α), (List.range n).findSome? f = some a →
    ∃ i < n, f i = some a ∧ ∀ j < i, f j = none
  | 0, a, h => by simp [List.findSome?] at h
  | n + 1, a, h => by
    rw [List.range_succ, List.findSome?_append] at h
    match h1 : (List.range n).findSome? f with
    | some b =>
      rw [h1] at h
      simp only [Option.or] at h
      obtain rfl : b = a := by simpa using h
      obtain ⟨i, hi, hfi, hprev⟩ := findSome?_range_first f n b h1
      exact ⟨i, by omega, hfi, hprev⟩
    | none =>
      rw [h1] at h
      simp only [Option.none_or] at h
      simp only [List.findSome?_cons, List.findSome?_nil] at h
      refine ⟨n, by omega, ?_, fun j hj => findSome?_range_none h1 j hj⟩
      match h2 : f n with
      | some c => rw [h2] at h; simpa [h2] using h
      | none => rw [h2] at h; cases h

end Game

namespace Game

theorem find_nearest_walkable_of_none (lvl : Level) (x y : ℤ)
    (h : ∀ c : ℤ × ℤ, 1 ≤ (c.1 - x).natAbs + (c.2 - y).natAbs →
      (c.1 - x).natAbs + (c.2 - y).natAbs ≤ 5 →
      lvl.is_walkable c.1 c.2 = false) :
    find_nearest_walkable lvl x y 5 = (x, y) := by
  have hall : (List.range 5).findSome? (fun i => ringProbe lvl x y (i + 1)) =
      none := by
    rw [List.findSome?_eq_none_iff]
    intro i hi
    rw [ringProbe_eq_none_iff]
    intro c hc
    have hi5 : i < 5 := List.mem_range.mp hi
    exact h c (by omega) (by omega)
  rw [find_nearest_walkable, hall]

theorem find_nearest_walkable_found (lvl : Level) (x y : ℤ) (c₀ : ℤ × ℤ)
    (hw : lvl.is_walkable c₀.1 c₀.2 = true)
    (hd1 : 1 ≤ (c₀.1 - x).natAbs + (c₀.2 - y).natAbs)
    (hd5 : (c₀.1 - x).natAbs + (c₀.2 - y).natAbs ≤ 5) :
    lvl.is_walkable (find_nearest_walkable lvl x y 5).1
      (find_nearest_walkable lvl x y 5).2 = true ∧
    1 ≤ ((find_nearest_walkable lvl x y 5).1 - x).natAbs +
      ((find_nearest_walkable lvl x y 5).2 - y).natAbs ∧
    ((find_nearest_walkable lvl x y 5).1 - x).natAbs +
      ((find_nearest_walkable lvl x y 5).2 - y).natAbs ≤ 5 ∧
    (∀ c : ℤ × ℤ, lvl.is_walkable c.1 c.2 = true →
      1 ≤ (c.1 - x).natAbs + (c.2 - y).natAbs →
      ((find_nearest_walkable lvl x y 5).1 - x).natAbs +
        ((find_nearest_walkable lvl x y 5).2 - y).natAbs ≤
        (c.1 - x).natAbs + (c.2 - y).natAbs) := by
  match hfs : (List.range 5).findSome? (fun i => ringProbe lvl x y (i + 1)) with
  | none =>
    exfalso
    set r₀ := (c₀.1 - x).natAbs + (c₀.2 - y).natAbs with hr₀
    have hnone := findSome?_range_none hfs (r₀ - 1) (by omega)
    have := ringProbe_eq_none_iff.mp (by rw [show r₀ - 1 + 1 = r₀ by omega] at hnone; exact hnone) c₀ rfl
    rw [hw] at this
    cases this
  | some w =>
    have hres : find_nearest_walkable lvl x y 5 = w := by
      rw [find_nearest_walkable, hfs]
    obtain ⟨i, hi5, hsome, hprev⟩ := findSome?_range_first _ 5 w hfs
    obtain ⟨hww, hwd⟩ := ringProbe_eq_some hsome
    rw [hres]
    refine ⟨hww, by omega, by omega, ?_⟩
    intro c hcw hc1
    by_contra hlt
    push_neg at hlt
    rw [hwd] at hlt
    set rc := (c.1 - x).natAbs + (c.2 - y).natAbs with hrc
    have hj : rc - 1 < i := by omega
    have hnone := hprev (rc - 1) hj
    have := ringProbe_eq_none_iff.mp
      (by rw [show rc - 1 + 1 = rc by omega] at hnone; exact hnone) c rfl
    rw [hcw] at this
    cases this

theorem astarLoop_nil (lvl : Level) (ts : ℤ) (goal : ℤ × ℤ) (gw : ℚ × ℚ)
    (fuel : ℕ) (closed : List (ℤ × ℤ)) :
    astarLoop lvl ts goal gw fuel [] closed = [gw] := by
  rw [astarLoop]
  rfl

theorem get_neighbors_blocked (lvl : Level)
    (hblocked : ∀ a b : ℤ, lvl.is_walkable a b = false) (a b : ℤ) :
    get_neighbors lvl a b = [] := by
  simp [get_neighbors, hblocked]

theorem find_path_blocked (lvl : Level) (ts : ℤ) (sx sy gx gy : ℚ)
    (hblocked : ∀ a b : ℤ, lvl.is_walkable a b = false)
    (hneq : (⌊sx / (ts : ℚ)⌋, ⌊sy / (ts : ℚ)⌋) ≠
      (⌊gx / (ts : ℚ)⌋, ⌊gy / (ts : ℚ)⌋)) :
    find_path lvl ts sx sy gx gy = [(gx, gy)] := by
  have hsnap : ∀ a b : ℤ, find_nearest_walkable lvl a b 5 = (a, b) :=
    fun a b => find_nearest_walkable_of_none lvl a b
      (fun c _ _ => hblocked c.1 c.2)
  simp only [find_path]
  rw [if_pos (by simp [hblocked]), if_pos (by simp [hblocked]), hsnap, hsnap]
  rw [astarLoop]
  simp only [popMin]
  rw [if_neg (by simp)]
  rw [if_neg (by simpa [Node.x, Node.y, Prod.ext_iff] using hneq)]
  rw [get_neighbors_blocked lvl hblocked]
  simp only [List.filterMap_nil, List.nil_append]
  exact astarLoop_nil lvl ts _ _ _ _

/-- C7: (a) when no walkable tile lies within diamond distance 1..5, the
snap helper keeps the original tile; (b) when one does, the helper returns
a walkable tile at the minimal such distance; (c) whenever the A* loop
runs out of open nodes it returns exactly the one-point fallback at the
literal goal world coordinates; (d) on a fully blocked grid (with start
and goal on different tiles) `find_path` returns `[(goal_x, goal_y)]`. -/
theorem c7_find_path_fallback (lvl : Level) (x y ts : ℤ) (sx sy gx gy : ℚ) :
    ((∀ c : ℤ × ℤ, 1 ≤ (c.1 - x).natAbs + (c.2 - y).natAbs →
        (c.1 - x).natAbs + (c.2 - y).natAbs ≤ 5 →
        lvl.is_walkable c.1 c.2 = false) →
      find_nearest_walkable lvl x y 5 = (x, y)) ∧
    (∀ c₀ : ℤ × ℤ, lvl.is_walkable c₀.1 c₀.2 = true →
      1 ≤ (c₀.1 - x).natAbs + (c₀.2 - y).natAbs →
      (c₀.1 - x).natAbs + (c₀.2 - y).natAbs ≤ 5 →
      lvl.is_walkable (find_nearest_walkable lvl x y 5).1
        (find_nearest_walkable lvl x y 5).2 = true ∧
      (∀ c : ℤ × ℤ, lvl.is_walkable c.1 c.2 = true →
        1 ≤ (c.1 - x).natAbs + (c.2 - y).natAbs →
        ((find_nearest_walkable lvl x y 5).1 - x).natAbs +
          ((find_nearest_walkable lvl x y 5).2 - y).natAbs ≤
          (c.1 - x).natAbs + (c.2 - y).natAbs)) ∧
    (∀ (goal : ℤ × ℤ) (fuel : ℕ) (closed : List (ℤ × ℤ)),
      astarLoop lvl ts goal (gx, gy) fuel [] closed = [(gx, gy)]) ∧
    ((∀ a b : ℤ, lvl.is_walkable a b = false) →
      (⌊sx / (ts : ℚ)⌋, ⌊sy / (ts : ℚ)⌋) ≠ (⌊gx / (ts : ℚ)⌋, ⌊gy / (ts : ℚ)⌋) →
      find_path lvl ts sx sy gx gy = [(gx, gy)]) := by
  refine ⟨find_nearest_walkable_of_none lvl x y, ?_, ?_, ?_⟩
  · intro c₀ hw hd1 hd5
    have h := find_nearest_walkable_found lvl x y c₀ hw hd1 hd5
    exact ⟨h.1, h.2.2.2⟩
  · intro goal fuel closed
    exact astarLoop_nil lvl ts goal (gx, gy) fuel closed
  · intro hblocked hneq
    exact find_path_blocked lvl ts sx sy gx gy hblocked hneq

/-- Fully blocked 3x3 level for the C7 witness. -/
def c7Lvl : Level := ⟨3, 3, fun _ _ => false⟩

/-- Witness for C7 on the fully blocked level: the snap keeps `(1, 1)` and
`find_path` from world (0,0) to world (100,100) with tile size 32 returns
the literal goal fallback. -/
theorem c7_find_path_fallback_witness :
    find_nearest_walkable c7Lvl 1 1 5 = (1, 1) ∧
    find_path c7Lvl 32 0 0 100 100 = [(100, 100)] :=
  ⟨(c7_find_path_fallback c7Lvl 1 1 32 0 0 100 100).1
      (fun c _ _ => by simp [c7Lvl, Level.is_walkable]),
    (c7_find_path_fallback c7Lvl 1 1 32 0 0 100 100).2.2.2
      (fun a b => by simp [c7Lvl, Level.is_walkable])
      (by norm_num [Prod.ext_iff])⟩

end Game

namespace Game

theorem handle_death_get_other (st : GameState) (eid kid id : ℤ)
    (h1 : id ≠ eid) (h2 : id ≠ kid) :
    (handle_death st eid kid).em.get_entity id = st.em.get_entity id := by
  rcases hent : st.em.get_entity eid with _ | ent
  · simp only [handle_death, hent]
  · rcases hkil : st.em.get_entity kid with _ | killer
    · simp only [handle_death, hent, hkil]
    · rcases hfac : ent.faction with _ | fac
      · simp only [handle_death, hent, hkil, hfac]
      · rcases hkfac : killer.faction with _ | kfac
        · simp only [handle_death, hent, hkil, hfac, hkfac]
        · simp only [handle_death, hent, hkil, hfac, hkfac]
          by_cases hp : fac.tag = FactionType.player
          · rw [if_pos hp]
            rfl
          · rw [if_neg hp]
            by_cases heb : fac.tag = FactionType.enemy ∨ fac.tag = FactionType.boss
            · rw [if_pos heb]
              rcases hexp : ent.experience with _ | exp
              · dsimp only
                rw [get_entity_remove_other _ eid id h1]
                rfl
              · rcases hkexp : killer.experience with _ | kexp
                · dsimp only
                  rw [get_entity_remove_other _ eid id h1]
                  rfl
                · dsimp only
                  rw [get_entity_remove_other _ eid id h1]
                  simp only [apply_ite GameState.em, GameState.emit, ite_self]
                  exact get_entity_set_other st.em kid id _ h2
            · rw [if_neg heb]

theorem handle_death_weapon_kid (st : GameState) (eid kid : ℤ)
    (hne : eid ≠ kid) (e : Entity)
    (hget : st.em.get_entity kid = some e) :
    ∃ e', (handle_death st eid kid).em.get_entity kid = some e' ∧
      e'.weapon = e.weapon := by
  have hkne : kid ≠ eid := fun hc => hne hc.symm
  rcases hent : st.em.get_entity eid with _ | ent
  · simp only [handle_death, hent]
    exact ⟨e, hget, rfl⟩
  · rcases hfac : ent.faction with _ | fac
    · simp only [handle_death, hent, hget, hfac]
      exact ⟨e, rfl, rfl⟩
    · rcases hkfac : e.faction with _ | kfac
      · simp only [handle_death, hent, hget, hfac, hkfac]
        exact ⟨e, rfl, rfl⟩
      · simp only [handle_death, hent, hget, hfac, hkfac]
        by_cases hp : fac.tag = FactionType.player
        · rw [if_pos hp]
          exact ⟨e, hget, rfl⟩
        · rw [if_neg hp]
          by_cases heb : fac.tag = FactionType.enemy ∨ fac.tag = FactionType.boss
          · rw [if_pos heb]
            rcases hexp : ent.experience with _ | exp
            · dsimp only
              refine ⟨e, ?_, rfl⟩
              rw [get_entity_remove_other _ eid kid hkne]
              exact hget
            · rcases hkexp : e.experience with _ | kexp
              · dsimp only
                refine ⟨e, ?_, rfl⟩
                rw [get_entity_remove_other _ eid kid hkne]
                exact hget
              · dsimp only
                rw [get_entity_remove_other _ eid kid hkne]
                simp only [apply_ite GameState.em, GameState.emit, ite_self]
                exact ⟨_, get_entity_set_self st.em kid _ e hget, rfl⟩
          · rw [if_neg heb]
            exact ⟨e, hget, rfl⟩

end Game

namespace Game

theorem apply_damage_get_other (st : GameState)
    (target_id damage attacker_id : ℤ) (is_crit : Bool) (id : ℤ)
    (h1 : id ≠ target_id) (h2 : id ≠ attacker_id) :
    (apply_damage st target_id damage attacker_id is_crit).2.em.get_entity id =
      st.em.get_entity id := by
  rcases hget : st.em.get_entity target_id with _ | target
  · simp only [apply_damage, hget]
  · rcases hh : target.health with _ | health
    · simp only [apply_damage, hget, hh]
    · simp only [apply_damage, hget, hh]
      rcases hfac : target.faction with _ | fac
      · dsimp only
        by_cases hdm : 0 < (health.take_damage damage).1
        · rw [if_pos hdm]
          by_cases hal : ¬ (health.take_damage damage).2.is_alive = true
          · rw [if_pos hal]
            rw [handle_death_get_other _ target_id attacker_id id h1 h2]
            simp only [GameState.emit]
            exact get_entity_set_other _ target_id id _ h1
          · rw [if_neg hal]
            simp only [GameState.emit]
            exact get_entity_set_other _ target_id id _ h1
        · rw [if_neg hdm]
          exact get_entity_set_other _ target_id id _ h1
      · dsimp only
        by_cases htag : fac.tag = FactionType.enemy
        · rw [if_pos htag]
          by_cases hroll : (st.draw).1 < 1/10
          · rw [if_pos hroll]
            rfl
          · rw [if_neg hroll]
            dsimp only
            by_cases hdm : 0 < (health.take_damage damage).1
            · rw [if_pos hdm]
              by_cases hal : ¬ (health.take_damage damage).2.is_alive = true
              · rw [if_pos hal]
                rw [handle_death_get_other _ target_id attacker_id id h1 h2]
                simp only [GameState.emit]
                exact get_entity_set_other _ target_id id _ h1
              · rw [if_neg hal]
                simp only [GameState.emit]
                exact get_entity_set_other _ target_id id _ h1
            · rw [if_neg hdm]
              exact get_entity_set_other _ target_id id _ h1
        · rw [if_neg htag]
          dsimp only
          by_cases hdm : 0 < (health.take_damage damage).1
          · rw [if_pos hdm]
            by_cases hal : ¬ (health.take_damage damage).2.is_alive = true
            · rw [if_pos hal]
              rw [handle_death_get_other _ target_id attacker_id id h1 h2]
              simp only [GameState.emit]
              exact get_entity_set_other _ target_id id _ h1
            · rw [if_neg hal]
              simp only [GameState.emit]
              exact get_entity_set_other _ target_id id _ h1
          · rw [if_neg hdm]
            exact get_entity_set_other _ target_id id _ h1

end Game

namespace Game

theorem apply_damage_weapon_att (st : GameState)
    (target_id damage attacker_id : ℤ) (is_crit : Bool)
    (hne : target_id ≠ attacker_id) (e : Entity)
    (hget : st.em.get_entity attacker_id = some e) :
    ∃ e', (apply_damage st target_id damage attacker_id
        is_crit).2.em.get_entity attacker_id = some e' ∧
      e'.weapon = e.weapon := by
  have hane : attacker_id ≠ target_id := fun hc => hne hc.symm
  rcases hgt : st.em.get_entity target_id with _ | target
  · simp only [apply_damage, hgt]
    exact ⟨e, hget, rfl⟩
  · rcases hh : target.health with _ | health
    · simp only [apply_damage, hgt, hh]
      exact ⟨e, hget, rfl⟩
    · simp only [apply_damage, hgt, hh]
      rcases hfac : target.faction with _ | fac
      · dsimp only
        by_cases hdm : 0 < (health.take_damage damage).1
        · rw [if_pos hdm]
          by_cases hal : ¬ (health.take_damage damage).2.is_alive = true
          · rw [if_pos hal]
            apply handle_death_weapon_kid _ target_id attacker_id hne e
            simp only [GameState.emit]
            rw [get_entity_set_other _ target_id attacker_id _ hane]
            exact hget
          · rw [if_neg hal]
            refine ⟨e, ?_, rfl⟩
            simp only [GameState.emit]
            rw [get_entity_set_other _ target_id attacker_id _ hane]
            exact hget
        · rw [if_neg hdm]
          refine ⟨e, ?_, rfl⟩
          rw [get_entity_set_other _ target_id attacker_id _ hane]
          exact hget
      · dsimp only
        by_cases htag : fac.tag = FactionType.enemy
        · rw [if_pos htag]
          by_cases hroll : (st.draw).1 < 1/10
          · rw [if_pos hroll]
            exact ⟨e, hget, rfl⟩
          · rw [if_neg hroll]
            dsimp only
            by_cases hdm : 0 < (health.take_damage damage).1
            · rw [if_pos hdm]
              by_cases hal : ¬ (health.take_damage damage).2.is_alive = true
              · rw [if_pos hal]
                apply handle_death_weapon_kid _ target_id attacker_id hne e
                simp only [GameState.emit]
                rw [get_entity_set_other _ target_id attacker_id _ hane]
                exact hget
              · rw [if_neg hal]
                refine ⟨e, ?_, rfl⟩
                simp only [GameState.emit]
                rw [get_entity_set_other _ target_id attacker_id _ hane]
                exact hget
            · rw [if_neg hdm]
              refine ⟨e, ?_, rfl⟩
              rw [get_entity_set_other _ target_id attacker_id _ hane]
              exact hget
        · rw [if_neg htag]
          dsimp only
          by_cases hdm : 0 < (health.take_damage damage).1
          · rw [if_pos hdm]
            by_cases hal : ¬ (health.take_damage damage).2.is_alive = true
            · rw [if_pos hal]
              apply handle_death_weapon_kid _ target_id attacker_id hne e
              simp only [GameState.emit]
              rw [get_entity_set_other _ target_id attacker_id _ hane]
              exact hget
            · rw [if_neg hal]
              refine ⟨e, ?_, rfl⟩
              simp only [GameState.emit]
              rw [get_entity_set_other _ target_id attacker_id _ hane]
              exact hget
          · rw [if_neg hdm]
            refine ⟨e, ?_, rfl⟩
            rw [get_entity_set_other _ target_id attacker_id _ hane]
            exact hget

end Game

namespace Game

/-- The candidate filter of the `perform_attack` loop: the id owns (in the
given snapshot) faction, transform and health components, is hostile to
the attacker, and its squared distance to the target point is within the
squared effective range. -/
def inRangeHostile (afac : Faction) (range_sq : ℚ) (tpos : ℚ × ℚ)
    (ents : List (ℤ × Entity)) (id : ℤ) : Prop :=
  ∃ e, (id, e) ∈ ents ∧ ∃ tf tt, e.faction = some tf ∧ e.transform = some tt ∧
    (∃ th, e.health = some th) ∧ afac.is_enemy_of tf = true ∧
    (tt.x - tpos.1) * (tt.x - tpos.1) + (tt.y - tpos.2) * (tt.y - tpos.2) ≤
      range_sq

theorem inRangeHostile_cons_of {afac : Faction} {range_sq : ℚ} {tpos : ℚ × ℚ}
    {p : ℤ × Entity} {rest : List (ℤ × Entity)} {id : ℤ}
    (h : inRangeHostile afac range_sq tpos rest id) :
    inRangeHostile afac range_sq tpos (p :: rest) id := by
  obtain ⟨e, hm, hrest⟩ := h
  exact ⟨e, List.mem_cons_of_mem _ hm, hrest⟩

theorem attackLoop_spec (attacker_id : ℤ) (afac : Faction) (dmgc : Damage)
    (pen : ℤ) (range_sq : ℚ) (tpos : ℚ × ℚ) :
    ∀ (ents : List (ℤ × Entity)) (st : GameState) (hits : List ℤ),
    (∃ new,
      (attackLoop attacker_id afac dmgc pen range_sq tpos st ents hits).1 =
        hits ++ new ∧
      ∀ id ∈ new, inRangeHostile afac range_sq tpos ents id) ∧
    (0 < pen → (hits.length : ℤ) ≤ pen →
      (((attackLoop attacker_id afac dmgc pen range_sq tpos st ents
        hits).1.length : ℤ) ≤ pen + 1)) ∧
    (∀ id : ℤ, id ≠ attacker_id →
      ¬ inRangeHostile afac range_sq tpos ents id →
      (attackLoop attacker_id afac dmgc pen range_sq tpos st ents
        hits).2.em.get_entity id = st.em.get_entity id) ∧
    (∀ e : Entity, st.em.get_entity attacker_id = some e →
      ∃ e', (attackLoop attacker_id afac dmgc pen range_sq tpos st ents
          hits).2.em.get_entity attacker_id = some e' ∧
        e'.weapon = e.weapon)
  | [], st, hits => by
    rw [attackLoop]
    refine ⟨⟨[], by simp, by simp⟩, fun _ h => ?_,
      fun _ _ _ => rfl, fun e h => ⟨e, h, rfl⟩⟩
    show ((hits.length : ℤ)) ≤ pen + 1
    omega
  | (eid, e0) :: rest, st, hits => by
    rw [attackLoop]
    by_cases hskip : eid = attacker_id
    · rw [if_pos hskip]
      obtain ⟨⟨new, hnew, hmem⟩, hpen, hoth, hweap⟩ :=
        attackLoop_spec attacker_id afac dmgc pen range_sq tpos rest st hits
      exact ⟨⟨new, hnew, fun id hid => inRangeHostile_cons_of (hmem id hid)⟩,
        hpen, fun id hne hnp => hoth id hne
          (fun hp => hnp (inRangeHostile_cons_of hp)), hweap⟩
    · rw [if_neg hskip]
      rcases hfac : e0.faction with _ | tfac
      · dsimp only
        obtain ⟨⟨new, hnew, hmem⟩, hpen, hoth, hweap⟩ :=
          attackLoop_spec attacker_id afac dmgc pen range_sq tpos rest st hits
        exact ⟨⟨new, hnew, fun id hid => inRangeHostile_cons_of (hmem id hid)⟩,
          hpen, fun id hne hnp => hoth id hne
            (fun hp => hnp (inRangeHostile_cons_of hp)), hweap⟩
      · rcases htr : e0.transform with _ | ttr
        · dsimp only
          obtain ⟨⟨new, hnew, hmem⟩, hpen, hoth, hweap⟩ :=
            attackLoop_spec attacker_id afac dmgc pen range_sq tpos rest st hits
          exact ⟨⟨new, hnew, fun id hid => inRangeHostile_cons_of (hmem id hid)⟩,
            hpen, fun id hne hnp => hoth id hne
              (fun hp => hnp (inRangeHostile_cons_of hp)), hweap⟩
        · rcases hh : e0.health with _ | th0
          · dsimp only
            obtain ⟨⟨new, hnew, hmem⟩, hpen, hoth, hweap⟩ :=
              attackLoop_spec attacker_id afac dmgc pen range_sq tpos rest st hits
            exact ⟨⟨new, hnew, fun id hid => inRangeHostile_cons_of (hmem id hid)⟩,
              hpen, fun id hne hnp => hoth id hne
                (fun hp => hnp (inRangeHostile_cons_of hp)), hweap⟩
          · dsimp only
            by_cases hen : afac.is_enemy_of tfac = true
            · rw [if_neg (not_not_intro hen)]
              by_cases hd : (ttr.x - tpos.1) * (ttr.x - tpos.1) +
                  (ttr.y - tpos.2) * (ttr.y - tpos.2) ≤ range_sq
              · rw [if_pos hd]
                have hpass : inRangeHostile afac range_sq tpos
                    ((eid, e0) :: rest) eid :=
                  ⟨e0, List.mem_cons_self _ _, tfac, ttr, hfac, htr,
                    ⟨th0, hh⟩, hen, hd⟩
                have hsplit :
                    (if 0 < (apply_damage (st.draw).2 eid
                        (dmgc.calculate_damage none (st.draw).1).1 attacker_id
                        (dmgc.calculate_damage none (st.draw).1).2).1 then
             hits ++ [eid] else hits) =
                    hits ++ (if 0 < (apply_damage (st.draw).2 eid
                        (dmgc.calculate_damage none (st.draw).1).1 attacker_id
                        (dmgc.calculate_damage none (st.draw).1).2).1 then
             [eid] else []) := by
                  split
                  · rfl
                  · simp
                by_cases hbr : 0 < pen ∧ pen + 1 ≤
                    (((if 0 < (apply_damage (st.draw).2 eid
                        (dmgc.calculate_damage none (st.draw).1).1 attacker_id
                        (dmgc.calculate_damage none (st.draw).1).2).1 then
             hits ++ [eid] else hits).length : ℤ))
                · rw [if_pos hbr]
                  refine ⟨⟨_, hsplit, ?_⟩, ?_, ?_, ?_⟩
                  · intro id hid
                    rcases ite_eq_or_eq (0 < (apply_damage (st.draw).2 eid
                        (dmgc.calculate_damage none (st.draw).1).1 attacker_id
                        (dmgc.calculate_damage none (st.draw).1).2).1)
                        ([eid]) ([] : List ℤ) with hq | hq <;> rw [hq] at hid
                    · obtain rfl : id = eid := by simpa using hid
                      exact hpass
                    · simp at hid
                  · intro hpen0 hle
                    rw [hsplit]
                    have : (if 0 < (apply_damage (st.draw).2 eid
                        (dmgc.calculate_damage none (st.draw).1).1 attacker_id
                        (dmgc.calculate_damage none (st.draw).1).2).1 then
             [eid] else ([] : List ℤ)).length ≤ 1 := by
                      split <;> simp
                    simp only [List.length_append]
                    push_cast
                    omega
                  · intro id hne hnp
                    have hne_eid : id ≠ eid := by
                      intro hc
                      exact hnp (hc ▸ hpass)
                    rw [apply_damage_get_other _ eid _ attacker_id _ id
                      hne_eid hne]
                    rfl
                  · intro e hget
                    exact apply_damage_weapon_att _ eid _ attacker_id _
                      (fun hc => hskip (hc.symm ▸ rfl)) e hget
                · rw [if_neg hbr]
                  obtain ⟨⟨new, hnew, hmem⟩, hpen, hoth, hweap⟩ :=
                    attackLoop_spec attacker_id afac dmgc pen range_sq tpos rest
                      (apply_damage (st.draw).2 eid
                        (dmgc.calculate_damage none (st.draw).1).1 attacker_id
                        (dmgc.calculate_damage none (st.draw).1).2).2
                      (if 0 < (apply_damage (st.draw).2 eid
                        (dmgc.calculate_damage none (st.draw).1).1 attacker_id
                        (dmgc.calculate_damage none (st.draw).1).2).1 then
             hits ++ [eid] else hits)
                  refine ⟨⟨(if 0 < (apply_damage (st.draw).2 eid
                        (dmgc.calculate_damage none (st.draw).1).1 attacker_id
                        (dmgc.calculate_damage none (st.draw).1).2).1 then
             [eid] else []) ++ new, ?_, ?_⟩, ?_, ?_, ?_⟩
                  · rw [hnew, hsplit, List.append_assoc]
                  · intro id hid
                    rcases List.mem_append.mp hid with hid | hid
                    · rcases ite_eq_or_eq (0 < (apply_damage (st.draw).2 eid
                        (dmgc.calculate_damage none (st.draw).1).1 attacker_id
                        (dmgc.calculate_damage none (st.draw).1).2).1)
                        ([eid]) ([] : List ℤ) with hq | hq <;> rw [hq] at hid
                      · obtain rfl : id = eid := by simpa using hid
                        exact hpass
                      · simp at hid
                    · exact inRangeHostile_cons_of (hmem id hid)
                  · intro hpen0 hle
                    apply hpen hpen0
                    have hnb := (not_and.mp hbr) hpen0
                    push_neg at hnb
                    omega
                  · intro id hne hnp
                    have hne_eid : id ≠ eid := by
                      intro hc
                      exact hnp (hc ▸ hpass)
                    rw [hoth id hne (fun hp => hnp (inRangeHostile_cons_of hp))]
                    rw [apply_damage_get_other _ eid _ attacker_id _ id
                      hne_eid hne]
                    rfl
                  · intro e hget
                    obtain ⟨e1, h1, hw1⟩ := apply_damage_weapon_att
                      (st.draw).2 eid
                      (dmgc.calculate_damage none (st.draw).1).1 attacker_id
                      (dmgc.calculate_damage none (st.draw).1).2
                      (fun hc => hskip (hc.symm ▸ rfl)) e hget
                    obtain ⟨e2, h2, hw2⟩ := hweap e1 h1
                    exact ⟨e2, h2, hw2.trans hw1⟩
              · rw [if_neg hd]
                obtain ⟨⟨new, hnew, hmem⟩, hpen, hoth, hweap⟩ :=
                  attackLoop_spec attacker_id afac dmgc pen range_sq tpos rest
                    st hits
                exact ⟨⟨new, hnew,
                  fun id hid => inRangeHostile_cons_of (hmem id hid)⟩,
                  hpen, fun id hne hnp => hoth id hne
                    (fun hp => hnp (inRangeHostile_cons_of hp)), hweap⟩
            · rw [if_pos hen]
              obtain ⟨⟨new, hnew, hmem⟩, hpen, hoth, hweap⟩ :=
                attackLoop_spec attacker_id afac dmgc pen range_sq tpos rest st
                  hits
              exact ⟨⟨new, hnew,
                fun id hid => inRangeHostile_cons_of (hmem id hid)⟩,
                hpen, fun id hne hnp => hoth id hne
                  (fun hp => hnp (inRangeHostile_cons_of hp)), hweap⟩

end Game

namespace Game

/-- C3: a `perform_attack` call before the cooldown elapses is a no-op
returning the empty hit list with the entire state (including
`last_attack_time`) unchanged; once the cooldown has elapsed it stamps
`last_attack_time = now` on the attacker's weapon, every returned hit id
is a hostile entity whose squared distance to the target point is within
`(range * range_modifier)^2` in the snapshot, with positive penetration at
most `penetration + 1` hits are recorded, and entities outside that filter
are left untouched in the store. -/
theorem c3_perform_attack (st : GameState) (attacker_id : ℤ) (tp : ℚ × ℚ)
    (now : ℚ) (attacker : Entity) (w : Weapon) (dc : Damage) (afac : Faction)
    (atr : Transform)
    (hget : st.em.get_entity attacker_id = some attacker)
    (hw : attacker.weapon = some w)
    (hd : attacker.damage = some dc)
    (hf : attacker.faction = some afac)
    (ht : attacker.transform = some atr) :
    (now - w.last_attack_time < w.attack_delay →
      perform_attack st attacker_id tp now = ([], st)) ∧
    (w.attack_delay ≤ now - w.last_attack_time →
      (∃ e', (perform_attack st attacker_id tp now).2.em.get_entity
          attacker_id = some e' ∧
        e'.weapon = some { w with last_attack_time := now }) ∧
      (∀ id ∈ (perform_attack st attacker_id tp now).1,
        inRangeHostile afac (w.get_effective_range ^ 2) tp st.em.entities id) ∧
      (0 < w.penetration →
        (((perform_attack st attacker_id tp now).1.length : ℤ) ≤
          w.penetration + 1)) ∧
      (∀ id : ℤ, id ≠ attacker_id →
        ¬ inRangeHostile afac (w.get_effective_range ^ 2) tp
          st.em.entities id →
        (perform_attack st attacker_id tp now).2.em.get_entity id =
          st.em.get_entity id)) := by
  constructor
  · intro hcool
    have hca : w.can_attack now = false := by
      simp only [Weapon.can_attack, decide_eq_false_iff_not, not_le]
      linarith
    simp only [perform_attack, hget, hw, hd, hf, ht]
    rw [if_pos (by rw [hca]; simp)]
  · intro hcool
    have hca : w.can_attack now = true := by
      simp only [Weapon.can_attack, decide_eq_true_eq]
      linarith
    simp only [perform_attack, hget, hw, hd, hf, ht]
    rw [if_neg (by rw [hca]; simp)]
    obtain ⟨⟨new, hnew, hmem⟩, hpen, hoth, hweap⟩ :=
      attackLoop_spec attacker_id afac dc w.penetration
        (w.get_effective_range ^ 2) tp st.em.entities
        { st with em := st.em.set_entity attacker_id ⟨some atr, attacker.health, some dc, some afac, some { w with last_attack_time := now }, attacker.experience, attacker.enemy, attacker.collider⟩ }
        []
    refine ⟨?_, ?_, ?_, ?_⟩
    · obtain ⟨e', he', hwe'⟩ := hweap
        ⟨some atr, attacker.health, some dc, some afac, some { w with last_attack_time := now }, attacker.experience, attacker.enemy, attacker.collider⟩
        (get_entity_set_self st.em attacker_id _ attacker hget)
      exact ⟨e', he', hwe'⟩
    · intro id hid
      rw [hnew] at hid
      simp only [List.nil_append] at hid
      exact hmem id hid
    · intro hpen0
      apply hpen hpen0
      simp only [List.length_nil, Nat.cast_zero]
      omega
    · intro id hne hnp
      rw [hoth id hne hnp]
      exact get_entity_set_other st.em attacker_id id _ hne

/-- Weapon for the C3 witness: sword, cooldown 1 s, not yet fired. -/
def c3W : Weapon := { attack_delay := 1 }

/-- Damage component for the C3 witness. -/
def c3D : Damage := {}

/-- Attacker entity for the C3 witness. -/
def c3Att : Entity :=
  { transform := some ⟨0, 0, 0, 0⟩, damage := some c3D,
    faction := some ⟨FactionType.player⟩, weapon := some c3W }

/-- State for the C3 witness. -/
def c3St : GameState :=
  { em := { entities := [(1, c3Att)], next_id := 2 },
    rng := fun _ => 1, rngIdx := 0, events := [] }

/-- Witness for C3: at `now = 1/2` the cooldown gate makes the attack a
no-op; at `now = 5` the attack fires and the stored weapon's
`last_attack_time` becomes 5. -/
theorem c3_perform_attack_witness :
    (c3St.em.get_entity 1 = some c3Att ∧ c3Att.weapon = some c3W ∧
      c3Att.damage = some c3D ∧
      c3Att.faction = some ⟨FactionType.player⟩ ∧
      c3Att.transform = some ⟨0, 0, 0, 0⟩ ∧
      (1/2 : ℚ) - c3W.last_attack_time < c3W.attack_delay ∧
      c3W.attack_delay ≤ (5 : ℚ) - c3W.last_attack_time) ∧
    perform_attack c3St 1 (10, 0) (1/2) = ([], c3St) ∧
    (∃ e', (perform_attack c3St 1 (10, 0) 5).2.em.get_entity 1 = some e' ∧
      e'.weapon = some { c3W with last_attack_time := 5 }) :=
  ⟨⟨rfl, rfl, rfl, rfl, rfl, by norm_num [c3W], by norm_num [c3W]⟩,
    (c3_perform_attack c3St 1 (10, 0) (1/2) c3Att c3W c3D
      ⟨FactionType.player⟩ ⟨0, 0, 0, 0⟩ rfl rfl rfl rfl rfl).1
      (by norm_num [c3W]),
    ((c3_perform_attack c3St 1 (10, 0) 5 c3Att c3W c3D
      ⟨FactionType.player⟩ ⟨0, 0, 0, 0⟩ rfl rfl rfl rfl rfl).2
      (by norm_num [c3W])).1⟩

/-- Witness for the amended C8 at the boss scenario: the killer's XP grant
uses the claim's floor formula tripled for the boss faction, the events
are emitted in order, and the boss entity is removed. -/
theorem c8_handle_death_amended_witness :
    ((1 : ℤ) ≠ 2 ∧ c8St.em.get_entity 1 = some c8Boss ∧
      c8St.em.get_entity 2 = some c8Killer ∧
      c8Boss.faction = some ⟨FactionType.boss⟩ ∧
      c8Killer.faction = some ⟨FactionType.player⟩ ∧
      ((Faction.mk FactionType.boss).tag = FactionType.enemy ∨
        (Faction.mk FactionType.boss).tag = FactionType.boss) ∧
      c8Boss.experience = some ⟨1, 0, 50, 1⟩ ∧
      c8Killer.experience = some ⟨1, 0, 50, 1⟩ ∧
      (0 : ℤ) ≤ (Experience.mk 1 0 50 1).level) ∧
    ((handle_death c8St 1 2).em.get_entity 1 = none ∧
      (handle_death c8St 1 2).em.get_entity 2 =
        some { c8Killer with experience := some ((Experience.mk 1 0 50 1).add_xp ((if (Faction.mk FactionType.boss).tag = FactionType.boss then 3 else 1) * ⌊(10 : ℚ) * (1 + ((Experience.mk 1 0 50 1).level : ℚ) * (1/10))⌋)).1 } ∧
      (handle_death c8St 1 2).events =
        c8St.events ++
          (if ((Experience.mk 1 0 50 1).add_xp ((if (Faction.mk FactionType.boss).tag = FactionType.boss then 3 else 1) * ⌊(10 : ℚ) * (1 + ((Experience.mk 1 0 50 1).level : ℚ) * (1/10))⌋)).2 then [GameEvent.level_up 2 ((Experience.mk 1 0 50 1).add_xp ((if (Faction.mk FactionType.boss).tag = FactionType.boss then 3 else 1) * ⌊(10 : ℚ) * (1 + ((Experience.mk 1 0 50 1).level : ℚ) * (1/10))⌋)).1.level] else []) ++
          [GameEvent.enemy_killed 1 2]) :=
  ⟨⟨by decide, rfl, rfl, rfl, rfl, Or.inr rfl, rfl, rfl, by decide⟩,
    c8_handle_death_amended c8St 1 2 c8Boss c8Killer ⟨FactionType.boss⟩
      ⟨FactionType.player⟩ ⟨1, 0, 50, 1⟩ ⟨1, 0, 50, 1⟩ (by decide) rfl rfl rfl
      rfl (Or.inr rfl) rfl rfl (by decide)⟩

end Game
